import Mathlib

/-!
# pgskipper-replication-controller: publication statement builder and reconciler

A shallow embedding of `pkg/postgres/client.go` (`EscapeInputValue`, the health check),
`pkg/publicaion/sql_helper.go` (the statement builders) and
`pkg/publicaion/controller.go` (the create / alter / drop operations).

A Go `string` is modelled as the list of its characters.  Every separator the
code searches for (`.`, `(`, `'`, `"`, `,`, braces) is ASCII, so searching by
character and searching by byte agree on UTF-8 text.
-/

namespace Pgskipper

/-- A Go string. -/
abbrev Str := List Char

/-! ## The Go standard library functions the code calls -/

/-- Go `strings.HasPrefix(s, pre)`. -/
def HasPrefix : Str → Str → Bool
  | _, [] => true
  | [], _ :: _ => false
  | c :: s, p :: pre => c == p && HasPrefix s pre

/-- Go `strings.Contains(s, substr)`: some suffix of `s` starts with `substr`. -/
def Contains : Str → Str → Bool
  | [], substr => HasPrefix [] substr
  | c :: s, substr => HasPrefix (c :: s) substr || Contains s substr

/-- Scanning loop of `strings.ReplaceAll` for a non-empty `old`: the counter is
the number of characters of a match still to be skipped. -/
def replaceFrom (old new : Str) : Nat → Str → Str
  | _, [] => []
  | k + 1, _ :: s => replaceFrom old new k s
  | 0, c :: s =>
    if HasPrefix (c :: s) old then new ++ replaceFrom old new (old.length - 1) s
    else c :: replaceFrom old new 0 s

/-- Go `strings.ReplaceAll(s, old, new)`: the non-overlapping occurrences of
`old`, leftmost first, are replaced by `new`; an empty `old` matches before
every character and at the end. -/
def ReplaceAll (s old new : Str) : Str :=
  if old = [] then new ++ s.flatMap (fun c => c :: new)
  else replaceFrom old new 0 s

/-- Scanning loop of `strings.Split` for a non-empty separator: the counter is
the number of characters of a matched separator still to be skipped. -/
def splitFrom (sep : Str) : Nat → Str → List Str
  | _, [] => [[]]
  | k + 1, _ :: s => splitFrom sep k s
  | 0, c :: s =>
    if HasPrefix (c :: s) sep then [] :: splitFrom sep (sep.length - 1) s
    else
      match splitFrom sep 0 s with
      | p :: ps => (c :: p) :: ps
      | [] => [[c]]

/-- Go `strings.Split(s, sep)`: all substrings of `s` separated by `sep`; an
empty separator explodes `s` into its characters. -/
def Split (s sep : Str) : List Str :=
  if sep = [] then s.map (fun c => [c])
  else splitFrom sep 0 s

/-- Go `strings.Join(elems, sep)`. -/
def Join : List Str → Str → Str
  | [], _ => []
  | [a], _ => a
  | a :: b :: rest, sep => a ++ sep ++ Join (b :: rest) sep

/-- Go `fmt.Sprintf` for formats whose only verb is `%s` and whose operands
are strings, as every format of this code is.  An operand is copied verbatim
(it is not scanned for verbs); a verb without an operand prints
`%!s(MISSING)`; the code never passes more operands than verbs. -/
def Sprintf : Str → List Str → Str
  | c :: d :: rest, args =>
    if c = '%' ∧ d = 's' then
      match args with
      | a :: more => a ++ Sprintf rest more
      | [] => "%!s(MISSING)".toList ++ Sprintf rest []
    else c :: Sprintf (d :: rest) args
  | fmt, _ => fmt

/-! ## `pkg/postgres/client.go` -/

/-- Source `EscapeInputValue` of `client.go`. -/
def EscapeInputValue (value : Str) : Str :=
  let singleQuote := ReplaceAll value "'".toList "''".toList
  ReplaceAll singleQuote "\"".toList "\"\"".toList

/-! ## `pkg/publicaion/sql_helper.go` -/

def pubGetQuery : Str :=
  "select pubname as name, pubowner::regrole as owner from pg_publication where pubname=$1".toList

def pubGetTablesQuery : Str :=
  "select schemaname, tablename, attnames::TEXT, Coalesce(rowfilter,'') from pg_publication_tables where pubname=$1".toList

def pubCreateAllTablesQuery : Str := "CREATE publication \"%s\" FOR ALL TABLES;".toList

def pubCreateWithTablesQuery : Str := "CREATE publication \"%s\" FOR TABLE %s".toList

def pubCreateWithSchemasQuery : Str := "CREATE publication \"%s\" FOR TABLES IN SCHEMA %s".toList

def pubAlterAddWithTablesQuery : Str := "ALTER PUBLICATION \"%s\" ADD TABLE %s".toList

def pubAlterAddWithSchemasQuery : Str := "ALTER PUBLICATION \"%s\" ADD TABLES IN SCHEMA %s".toList

def pubAlterSetWithTablesQuery : Str := "ALTER PUBLICATION \"%s\" SET TABLE %s".toList

def pubDropQuery : Str := "DROP publication \"%s\";".toList

def schemasAppend : Str := "TABLES IN SCHEMA".toList

def getPubGetQuery : Str := pubGetQuery

def getPubGetTablesQuery : Str := pubGetTablesQuery

def getPubCreateAllTablesQuery (publication : Str) : Str :=
  Sprintf pubCreateAllTablesQuery [EscapeInputValue publication]

def getPubDropQuery (publication : Str) : Str :=
  Sprintf pubDropQuery [EscapeInputValue publication]

/-- Source `prepareTableWithArgs`: the token is split at every `(`; with more than one
piece the first is quoted and the second appended after a `(`. -/
def prepareTableWithArgs (table : Str) : Str :=
  let tableWithArgs := Split table "(".toList
  if tableWithArgs.length > 1 then
    Sprintf "\"%s\"(%s".toList [tableWithArgs.getD 0 [], tableWithArgs.getD 1 []]
  else
    Sprintf "\"%s\"".toList [table]

/-- Source `prepareTableWithSchema`: the token is split at every `.` and the pieces
`tableArr[0]` and `tableArr[1]` are used; `none` is the index-out-of-range
panic of a token without `.`. -/
def prepareTableWithSchema (table : Str) : Option Str :=
  let tableArr := Split table ".".toList
  match tableArr[0]?, tableArr[1]? with
  | some t0, some t1 =>
    let schema := Sprintf "\"%s\"".toList [t0]
    let tableWithArgs := prepareTableWithArgs t1
    some (Sprintf "%s.%s".toList [schema, tableWithArgs])
  | _, _ => none

/-- Body of the loop of `prepareTables` for one token. -/
def prepareTable (origTable : Str) : Option Str :=
  let table := EscapeInputValue origTable
  if Contains table ".".toList then prepareTableWithSchema table
  else some (prepareTableWithArgs table)

/-- Source `prepareTables`: every token is prepared in turn, in request order. -/
def prepareTables : List Str → Option (List Str)
  | [] => some []
  | origTable :: rest =>
    match prepareTable origTable with
    | none => none
    | some table =>
      match prepareTables rest with
      | none => none
      | some preparedTables => some (table :: preparedTables)

/-- Source `prepareSchemas`. -/
def prepareSchemas : List Str → List Str
  | [] => []
  | origSchema :: rest =>
    let schema := EscapeInputValue origSchema
    let schema := Sprintf "\"%s\"".toList [schema]
    schema :: prepareSchemas rest

/-- Source `formQueryWithTablesAndSchemas`; `none` is a panic while preparing the
tables. -/
def formQueryWithTablesAndSchemas (publication : Str) (tables schemas : List Str)
    (queryForTables queryForSchemas : Str) : Option Str :=
  let areTablesPresent := decide (tables.length > 0)
  let areSchemasPresent := decide (schemas.length > 0)
  let query? : Option Str :=
    if areTablesPresent then
      match prepareTables tables with
      | none => none
      | some prepTables =>
        some (Sprintf queryForTables [EscapeInputValue publication, Join prepTables ",".toList])
    else some []
  match query? with
  | none => none
  | some query =>
    if areSchemasPresent then
      let prepSchemas := prepareSchemas schemas
      if areTablesPresent then
        some (Sprintf "%s, %s %s;".toList [query, schemasAppend, Join prepSchemas ",".toList])
      else
        some (Sprintf queryForSchemas [EscapeInputValue publication, Join prepSchemas ",".toList])
    else some query

def getPubCreateQuery (publication : Str) (tables schemas : List Str) : Option Str :=
  formQueryWithTablesAndSchemas publication tables schemas
    pubCreateWithTablesQuery pubCreateWithSchemasQuery

def getPubAlterAddQuery (publication : Str) (tables schemas : List Str) : Option Str :=
  formQueryWithTablesAndSchemas publication tables schemas
    pubAlterAddWithTablesQuery pubAlterAddWithSchemasQuery

def getPubAlterSetQuery (publication : Str) (tables schemas : List Str) : Option Str :=
  formQueryWithTablesAndSchemas publication tables schemas
    pubAlterSetWithTablesQuery pubAlterAddWithSchemasQuery

/-! ## The database behind `pgClient` -/

/-- A Go `error`: `pgx.ErrNoRows` (which the code recognises by identity) or
any other error, carrying its message. -/
inductive GoError
  | errNoRows
  | other (msg : Str)
deriving DecidableEq

/-- Go `err.Error()`. -/
def GoError.Error : GoError → Str
  | .errNoRows => "no rows in result set".toList
  | .other msg => msg

/-- The controller's `isNotFoundErr`. -/
def isNotFoundErr : GoError := GoError.errNoRows

/-- How a Go call ends: it returns a value or it panics. -/
inductive Outcome (α : Type)
  | returned (a : α)
  | panicked (e : GoError)
deriving DecidableEq

/-- What the controller does to the database, in order. -/
inductive Event
  | connect (database : Str)
  | query (database sql : Str) (args : List Str)
  | exec (database sql : Str)
  | close (database : Str)
deriving DecidableEq

/-- The `postgres.Client` with the server it talks to.  The server is not part
of the repository: it is a parameter, with a state of type `σ`.
* `connect s db` is `pgx.Connect` to `db`: `none`, or the error message;
* `queryPublication s db name` is `conn.Query(pubGetQuery, name)` followed by
  `rows.Next()` and `rows.Scan` of the first row: the message of a failed
  query or scan (the code panics on both), no row, or name and owner;
* `queryTables s db name` is `conn.Query(pubGetTablesQuery, name)` read to the
  end: the message of a failed query or scan, or the rows
  (schema, table, attribute array, row filter);
* `exec s db sql` is `conn.Exec(sql)`: the state afterwards and the error
  message, if any. -/
structure Client (σ : Type) where
  DefaultDB : Str
  connect : σ → Str → Option Str
  queryPublication : σ → Str → Str → Except Str (Option (Str × Str))
  queryTables : σ → Str → Str → Except Str (List (Str × Str × Str × Str))
  exec : σ → Str → Str → σ × Option Str

/-- Source `Client.GetConnectionToDb`: an empty database name selects the default
database; the connection, when opened, is named by its database. -/
def GetConnectionToDb {σ : Type} (ca : Client σ) (s : σ) (database : Str) :
    Except GoError Str × List Event :=
  let database := if database = [] then ca.DefaultDB else database
  match ca.connect s database with
  | some msg => (.error (.other msg), [.connect database])
  | none => (.ok database, [.connect database])

/-! ## `pkg/publicaion/controller.go` -/

structure CommonRequest where
  PubName : Str
  Database : Str
  Tables : List Str
  Schemas : List Str
deriving DecidableEq

structure Table where
  Name : Str
  Attr : List Str
  RowFilter : Str
deriving DecidableEq

/-- Source `PublicationInfo`; the Go map `Tables` is an association list, keys in the
order of their first row. -/
structure PublicationInfo where
  Name : Str
  Owner : Str
  Database : Str
  Tables : List (Str × List Table)
deriving DecidableEq

/-- The zero value `PublicationInfo{}`. -/
def PublicationInfo.zero : PublicationInfo := ⟨[], [], [], []⟩

/-- Go `strings.Trim(s, cutset)`. -/
def Trim (s cutset : Str) : Str :=
  ((s.dropWhile (fun c => decide (c ∈ cutset))).reverse.dropWhile
    (fun c => decide (c ∈ cutset))).reverse

/-- Source `convAttrStrToSlice`. -/
def convAttrStrToSlice (attrs : Str) : List Str :=
  let attrs := Trim attrs "\x7b".toList
  let attrs := Trim attrs "\x7d".toList
  Split attrs ",".toList

/-- The map update of `processTableRows`: append to the schema's tables, or
start them. -/
def addTable (schema : Str) (table : Table) :
    List (Str × List Table) → List (Str × List Table)
  | [] => [(schema, [table])]
  | (k, tables) :: rest =>
    if k = schema then (k, tables ++ [table]) :: rest
    else (k, tables) :: addTable schema table rest

/-- Source `processTableRows` on rows already scanned. -/
def processTableRows (rows : List (Str × Str × Str × Str)) : List (Str × List Table) :=
  rows.foldl
    (fun tablesInfo row =>
      addTable row.1 ⟨row.2.1, convAttrStrToSlice row.2.2.1, row.2.2.2⟩ tablesInfo)
    []

/-- Source `validatePublication`: `none` is the nil error. -/
def validatePublication (publication database : Str) : Option GoError :=
  if database.length = 0 then some (.other "database must not be empty".toList)
  else if publication.length = 0 then some (.other "database must not be empty".toList)
  else none

/-- Source `getPublicationInternal`: the Go pair `(PublicationInfo, error)` and the
events.  The deferred `conn.Close` runs on every exit once the connection is
open. -/
def getPublicationInternal {σ : Type} (pc : Client σ) (s : σ) (publication database : Str)
    (withTables : Bool) : Outcome (PublicationInfo × Option GoError) × List Event :=
  match GetConnectionToDb pc s database with
  | (.error err, ev) =>
    if Contains err.Error "(SQLSTATE 3D000)".toList then
      (.returned (PublicationInfo.zero, some isNotFoundErr), ev)
    else (.panicked err, ev)
  | (.ok conn, ev) =>
    let ev := ev ++ [.query conn getPubGetQuery [publication]]
    match pc.queryPublication s conn publication with
    | .error msg => (.panicked (.other msg), ev ++ [.close conn])
    | .ok none => (.returned (PublicationInfo.zero, some isNotFoundErr), ev ++ [.close conn])
    | .ok (some (name, owner)) =>
      if withTables then
        let ev := ev ++ [.query conn getPubGetTablesQuery [publication]]
        match pc.queryTables s conn publication with
        | .error msg => (.panicked (.other msg), ev ++ [.close conn])
        | .ok rows =>
          (.returned (⟨name, owner, database, processTableRows rows⟩, none), ev ++ [.close conn])
      else (.returned (⟨name, owner, database, []⟩, none), ev ++ [.close conn])

/-- Source `getPublication`. -/
def getPublication {σ : Type} (pc : Client σ) (s : σ) (request : CommonRequest)
    (withTables : Bool) : Outcome (PublicationInfo × Option GoError) × List Event :=
  let database := request.Database
  let publication := request.PubName
  match validatePublication publication database with
  | some err => (.returned (PublicationInfo.zero, some err), [])
  | none => getPublicationInternal pc s publication database withTables

/-- Source `isPublicationExists`: `err != isNotFoundErr`. -/
def isPublicationExists {σ : Type} (pc : Client σ) (s : σ) (publication database : Str) :
    Outcome Bool × List Event :=
  match getPublicationInternal pc s publication database false with
  | (.panicked e, ev) => (.panicked e, ev)
  | (.returned (_, err), ev) => (.returned (decide (err ≠ some isNotFoundErr)), ev)

/-- The result of a mutating operation: how the call ended (`returned none`
is the nil error), the server state afterwards, and the events in order. -/
structure Run (σ : Type) where
  outcome : Outcome (Option GoError)
  state : σ
  events : List Event
deriving DecidableEq

/-- The panic of an index out of range while a statement is built. -/
def indexOutOfRange : GoError := .other "runtime error: index out of range".toList

/-- The tail shared by the operations once a connection is open: the statement
is built (for `log.Debug` and again for `Exec`), executed, and the connection
closed; `dupIsError` says whether SQLSTATE 42710 is returned instead of
panicking. -/
def execAndClose {σ : Type} (pc : Client σ) (s : σ) (conn : Str) (ev : List Event)
    (sql : Option Str) (dupIsError : Bool) : Run σ :=
  match sql with
  | none => ⟨.panicked indexOutOfRange, s, ev ++ [.close conn]⟩
  | some sql =>
    match pc.exec s conn sql with
    | (s', some msg) =>
      if dupIsError && Contains msg "(SQLSTATE 42710)".toList then
        ⟨.returned (some (.other msg)), s', ev ++ [.exec conn sql, .close conn]⟩
      else ⟨.panicked (.other msg), s', ev ++ [.exec conn sql, .close conn]⟩
    | (s', none) => ⟨.returned none, s', ev ++ [.exec conn sql, .close conn]⟩

/-- Source `createPublication`. -/
def createPublication {σ : Type} (pc : Client σ) (s : σ) (request : CommonRequest) : Run σ :=
  let database := request.Database
  let publication := request.PubName
  match validatePublication publication database with
  | some err => ⟨.returned (some err), s, []⟩
  | none =>
    match isPublicationExists pc s publication database with
    | (.panicked e, ev) => ⟨.panicked e, s, ev⟩
    | (.returned true, ev) => ⟨.returned none, s, ev⟩
    | (.returned false, ev) =>
      match GetConnectionToDb pc s database with
      | (.error err, ev2) => ⟨.panicked err, s, ev ++ ev2⟩
      | (.ok conn, ev2) =>
        let tables := request.Tables
        let schemas := request.Schemas
        if tables.length = 0 ∧ schemas.length = 0 then
          match getPubCreateQuery publication tables schemas with
          | none => ⟨.panicked indexOutOfRange, s, ev ++ ev2 ++ [.close conn]⟩
          | some _ =>
            execAndClose pc s conn (ev ++ ev2) (some (getPubCreateAllTablesQuery publication)) false
        else
          execAndClose pc s conn (ev ++ ev2) (getPubCreateQuery publication tables schemas) false

/-- Source `alterAddPublication`. -/
def alterAddPublication {σ : Type} (pc : Client σ) (s : σ) (request : CommonRequest) : Run σ :=
  let database := request.Database
  let publication := request.PubName
  match validatePublication publication database with
  | some err => ⟨.returned (some err), s, []⟩
  | none =>
    match isPublicationExists pc s publication database with
    | (.panicked e, ev) => ⟨.panicked e, s, ev⟩
    | (.returned false, ev) => ⟨.returned (some isNotFoundErr), s, ev⟩
    | (.returned true, ev) =>
      let tables := request.Tables
      let schemas := request.Schemas
      if tables.length = 0 ∧ schemas.length = 0 then
        let errMsg :=
          Sprintf "Nothing to add to publication %s in database %s".toList [publication, database]
        ⟨.returned (some (.other errMsg)), s, ev⟩
      else
        match GetConnectionToDb pc s database with
        | (.error err, ev2) => ⟨.panicked err, s, ev ++ ev2⟩
        | (.ok conn, ev2) =>
          execAndClose pc s conn (ev ++ ev2) (getPubAlterAddQuery publication tables schemas) true

/-- Source `alterSetPublication`. -/
def alterSetPublication {σ : Type} (pc : Client σ) (s : σ) (request : CommonRequest) : Run σ :=
  let database := request.Database
  let publication := request.PubName
  match validatePublication publication database with
  | some err => ⟨.returned (some err), s, []⟩
  | none =>
    match isPublicationExists pc s publication database with
    | (.panicked e, ev) => ⟨.panicked e, s, ev⟩
    | (.returned false, ev) => ⟨.returned (some isNotFoundErr), s, ev⟩
    | (.returned true, ev) =>
      let tables := request.Tables
      let schemas := request.Schemas
      if tables.length = 0 ∧ schemas.length = 0 then
        let errMsg :=
          Sprintf "Nothing to add to publication %s in database %s".toList [publication, database]
        ⟨.returned (some (.other errMsg)), s, ev⟩
      else
        match GetConnectionToDb pc s database with
        | (.error err, ev2) => ⟨.panicked err, s, ev ++ ev2⟩
        | (.ok conn, ev2) =>
          execAndClose pc s conn (ev ++ ev2) (getPubAlterSetQuery publication tables schemas) true

/-- Source `dropPublication`. -/
def dropPublication {σ : Type} (pc : Client σ) (s : σ) (request : CommonRequest) : Run σ :=
  let publication := request.PubName
  let database := request.Database
  match validatePublication publication database with
  | some err => ⟨.returned (some err), s, []⟩
  | none =>
    match isPublicationExists pc s publication database with
    | (.panicked e, ev) => ⟨.panicked e, s, ev⟩
    | (.returned false, ev) => ⟨.returned none, s, ev⟩
    | (.returned true, ev) =>
      match GetConnectionToDb pc s database with
      | (.error err, ev2) => ⟨.panicked err, s, ev ++ ev2⟩
      | (.ok conn, ev2) =>
        execAndClose pc s conn (ev ++ ev2) (some (getPubDropQuery publication)) false

/-! ## Reading a trace -/

/-- The databases a connection was attempted to, in order. -/
def connectionsOf : List Event → List Str
  | [] => []
  | .connect database :: rest => database :: connectionsOf rest
  | _ :: rest => connectionsOf rest

/-- The statements passed to `Exec`, in order. -/
def executedOf : List Event → List Str
  | [] => []
  | .exec _ sql :: rest => sql :: executedOf rest
  | _ :: rest => executedOf rest

/-! ## A small PostgreSQL server, for concrete runs

Publications are kept per database under the name the server reads from the
double-quoted identifier of the statement: inside the quotes two double quotes
stand for one, and every other character, a single quote included, stands for
itself. -/

/-- The server state: the databases, and the publications as
(database, name, clause that follows the name). -/
structure MiniPg where
  databases : List Str
  publications : List (Str × Str × Str)
deriving DecidableEq

/-- The string `s` without the leading `pre`, when it starts with it. -/
def dropLeading : Str → Str → Option Str
  | [], s => some s
  | _ :: _, [] => none
  | p :: pre, c :: s => if p = c then dropLeading pre s else none

/-- Reads a double-quoted identifier after its opening quote: the name it
denotes and the text after the closing quote. -/
def readIdent : Str → Option (Str × Str)
  | [] => none
  | c :: rest =>
    if c = '"' then
      match rest with
      | d :: rest2 =>
        if d = '"' then (readIdent rest2).map (fun r => ('"' :: r.1, r.2))
        else some ([], d :: rest2)
      | [] => some ([], [])
    else (readIdent rest).map (fun r => (c :: r.1, r.2))

def MiniPg.hasPublication (s : MiniPg) (database name : Str) : Bool :=
  s.publications.any (fun p => decide (p.1 = database ∧ p.2.1 = name))

def MiniPg.badStatement : Str := "ERROR: syntax error (SQLSTATE 42601)".toList

def MiniPg.duplicate (name : Str) : Str :=
  "ERROR: publication \"".toList ++ name ++ "\" already exists (SQLSTATE 42710)".toList

def MiniPg.undefined (name : Str) : Str :=
  "ERROR: publication \"".toList ++ name ++ "\" does not exist (SQLSTATE 42704)".toList

def MiniPg.noDatabase (database : Str) : Str :=
  "FATAL: database \"".toList ++ database ++ "\" does not exist (SQLSTATE 3D000)".toList

/-- Executes one of the statements the builders produce. -/
def MiniPg.exec (s : MiniPg) (database sql : Str) : MiniPg × Option Str :=
  match dropLeading "CREATE publication \"".toList sql with
  | some rest =>
    match readIdent rest with
    | none => (s, some MiniPg.badStatement)
    | some (name, clause) =>
      if s.hasPublication database name then (s, some (MiniPg.duplicate name))
      else (⟨s.databases, s.publications ++ [(database, name, clause)]⟩, none)
  | none =>
    match dropLeading "DROP publication \"".toList sql with
    | some rest =>
      match readIdent rest with
      | none => (s, some MiniPg.badStatement)
      | some (name, _) =>
        if s.hasPublication database name then
          (⟨s.databases,
            s.publications.filter (fun p => !decide (p.1 = database ∧ p.2.1 = name))⟩, none)
        else (s, some (MiniPg.undefined name))
    | none =>
      match dropLeading "ALTER PUBLICATION \"".toList sql with
      | some rest =>
        match readIdent rest with
        | none => (s, some MiniPg.badStatement)
        | some (name, clause) =>
          if s.hasPublication database name then
            (⟨s.databases,
              s.publications.map (fun p =>
                if p.1 = database ∧ p.2.1 = name then (p.1, p.2.1, p.2.2 ++ clause) else p)⟩,
              none)
          else (s, some (MiniPg.undefined name))
      | none => (s, some MiniPg.badStatement)

/-- The client of the small server; the table listing is not kept. -/
def miniPg : Client MiniPg where
  DefaultDB := "postgres".toList
  connect := fun s database =>
    if database ∈ s.databases then none else some (MiniPg.noDatabase database)
  queryPublication := fun s database name =>
    .ok (if s.hasPublication database name then some (name, "postgres".toList) else none)
  queryTables := fun _ _ _ => .ok []
  exec := MiniPg.exec

/-! ## Vocabulary of the statements proved below -/

/-- The replacement `EscapeInputValue` makes for one character: a single quote
becomes two single quotes, a double quote two double quotes, every other
character stays. -/
def escapeChar (c : Char) : Str :=
  if c = '\'' then ['\'', '\''] else if c = '"' then ['"', '"'] else [c]

/-- Lengths of the maximal runs of `c`, scanning with the length `n` of the
run that is open. -/
def runLengthsFrom (c : Char) : Nat → Str → List Nat
  | n, [] => if n = 0 then [] else [n]
  | n, x :: s =>
    if x = c then runLengthsFrom c (n + 1) s
    else (if n = 0 then [] else [n]) ++ runLengthsFrom c 0 s

/-- Lengths of the maximal runs of the character `c` in `s`, left to right. -/
def runLengths (c : Char) (s : Str) : List Nat := runLengthsFrom c 0 s

/-- The number of quote characters, single or double, in `s`. -/
def quoteCount (s : Str) : Nat := s.countP (fun c => decide (c = '\'' ∨ c = '"'))

/-- A double-quoted identifier as the builders write it. -/
def quoted (s : Str) : Str := '"' :: (s ++ ['"'])

/-- No dot, opening parenthesis, single quote or double quote in `s`. -/
def Plain (s : Str) : Prop := '.' ∉ s ∧ '(' ∉ s ∧ '\'' ∉ s ∧ '"' ∉ s

instance (s : Str) : Decidable (Plain s) := by unfold Plain; infer_instance

/-- The text the builders append after the table clause when schemas are given
too: `, TABLES IN SCHEMA `, the quoted escaped schemas joined by `,`, and `;`. -/
def schemaSuffix (schemas : List Str) : Str :=
  ", TABLES IN SCHEMA ".toList ++
    (Join (schemas.map (fun s => quoted (EscapeInputValue s))) ",".toList ++ ";".toList)

/-- The lookup finds no publication `name` in `database`: the database does
not exist (SQLSTATE 3D000 on connecting) or the query has no row. -/
def absent {σ : Type} (pc : Client σ) (s : σ) (name database : Str) : Bool :=
  match pc.connect s database with
  | some msg => Contains msg "(SQLSTATE 3D000)".toList
  | none =>
    match pc.queryPublication s database name with
    | .ok none => true
    | _ => false

/-- The lookup finds the publication `name` in `database`. -/
def present {σ : Type} (pc : Client σ) (s : σ) (name database : Str) : Bool :=
  match pc.connect s database with
  | some _ => false
  | none =>
    match pc.queryPublication s database name with
    | .ok (some _) => true
    | _ => false

/-- The run returned `result`, left the server state `s` as it was, attempted
one connection, to `database`, and executed no statement. -/
def LookupOnly {σ : Type} (r : Run σ) (s : σ) (database : Str) (result : Option GoError) :
    Prop :=
  r.outcome = .returned result ∧ r.state = s ∧ connectionsOf r.events = [database] ∧
    executedOf r.events = []

/-- The message of the error `alterAddPublication` and `alterSetPublication`
return for a request without tables and schemas. -/
def nothingToAdd (publication database : Str) : Str :=
  "Nothing to add to publication ".toList ++ (publication ++ (" in database ".toList ++ database))

/-- A server with the database `salesdb` and no publication. -/
def emptySales : MiniPg := ⟨["salesdb".toList], []⟩

/-- A server with the database `salesdb` and the publication `sales_pub`. -/
def withSalesPub : MiniPg :=
  ⟨["salesdb".toList], [("salesdb".toList, "sales_pub".toList, " FOR ALL TABLES;".toList)]⟩

/-! ## The health check of `pkg/postgres/client.go` -/

def HealthUP : Str := "UP".toList

def HealthOOS : Str := "OUT_OF_SERVICE".toList

def healthQuery : Str := "SELECT 1 FROM pg_catalog.pg_tables".toList

/-- Source `Client.executeHealthQuery`: a connection to the default database
and one `Exec` of the health query; the error, if any.  The query only reads,
so the server state after it is not kept. -/
def executeHealthQuery {σ : Type} (ca : Client σ) (s : σ) : Option GoError :=
  match ca.connect s ca.DefaultDB with
  | some msg => some (.other msg)
  | none =>
    match (ca.exec s ca.DefaultDB healthQuery).2 with
    | some msg => some (.other msg)
    | none => none

/-- Source `Client.getHealth`. -/
def getHealth {σ : Type} (ca : Client σ) (s : σ) : Str :=
  match executeHealthQuery ca s with
  | some _ => HealthOOS
  | none => HealthUP

/-- The case of the `select` in `RequestHealth` that is taken: the probe has
delivered its result on the channel, or the timer has fired. -/
inductive Selected
  | probe
  | timer
deriving DecidableEq

/-- Source `Client.RequestHealth`, given the case of the `select` that is
taken.  The receiver is a copy, so the value returned is the status just
stored in it. -/
def RequestHealth {σ : Type} (ca : Client σ) (s : σ) (sel : Selected) : Outcome Str :=
  match sel with
  | .probe =>
    let healthStatus := getHealth ca s
    if healthStatus = HealthOOS then .panicked (.other "postgres is unavailable".toList)
    else .returned healthStatus
  | .timer => .panicked (.other "postgres connection timeout expired".toList)

/-- A server on which every connection succeeds, every publication looked up
is found, and every statement executed ends with `err`. -/
def scripted (err : Option Str) : Client Unit where
  DefaultDB := "postgres".toList
  connect := fun _ _ => none
  queryPublication := fun _ _ name => .ok (some (name, "postgres".toList))
  queryTables := fun _ _ _ => .ok []
  exec := fun s _ _ => (s, err)

/-- A server without any database. -/
def noDatabases : MiniPg := ⟨[], []⟩

/-! ## More vocabulary -/

/-- The name a double-quoted identifier with contents `s` denotes: every
doubled double quote stands for one double quote, every other character for
itself. -/
def collapseQuotes : Str → Str
  | [] => []
  | c :: rest =>
    if c = '"' then
      match rest with
      | d :: rest2 =>
        if d = '"' then '"' :: collapseQuotes rest2 else '"' :: d :: collapseQuotes rest2
      | [] => ['"']
    else c :: collapseQuotes rest

/-- The publication name a statement denotes when it starts with `lead` (the
keywords and the opening quote): the identifier read after `lead`. -/
def namedIn (lead stmt : Str) : Option Str :=
  match dropLeading lead stmt with
  | none => none
  | some rest => (readIdent rest).map (fun r => r.1)

/-- Inside the quotes of a segment: every double quote is in a run of even
length. -/
def EvenQuotes (s : Str) : Prop := ∀ m ∈ runLengths '"' s, Even m

/-- The outcome of alter-add and alter-set once the statement has been
executed with result `err`: success, the duplicate-object error returned, or a
panic. -/
def alterOutcome (err : Option Str) : Outcome (Option GoError) :=
  match err with
  | none => .returned none
  | some msg =>
    if Contains msg "(SQLSTATE 42710)".toList then .returned (some (.other msg))
    else .panicked (.other msg)

/-- The string `s` neither starts nor ends with a brace. -/
def noOuterBrace (s : Str) : Bool :=
  (match s.head? with
    | some c => c != '\x7b' && c != '\x7d'
    | none => true) &&
  (match s.getLast? with
    | some c => c != '\x7b' && c != '\x7d'
    | none => true)

/-- No comma and no brace in `s`. -/
def PlainAttr (s : Str) : Prop := ',' ∉ s ∧ '\x7b' ∉ s ∧ '\x7d' ∉ s

instance (s : Str) : Decidable (PlainAttr s) := by unfold PlainAttr; infer_instance

/-- The contents of a quoted segment cannot close it early and hold no dot:
every double quote is in a run of even length, and there is no `.`. -/
def ClosedSegment (a : Str) : Prop := EvenQuotes a ∧ '.' ∉ a

/-- One double-quoted segment, or two double-quoted segments joined by one
`.`, each with closed contents. -/
def ClosedShape (p : Str) : Prop :=
  (∃ a, p = quoted a ∧ ClosedSegment a) ∨
    (∃ a b, p = quoted a ++ '.' :: quoted b ∧ ClosedSegment a ∧ ClosedSegment b)

/-! ## Lemmas on the library functions -/

theorem HasPrefix_single (c x : Char) (s : Str) : HasPrefix (x :: s) [c] = (x == c) := by
  simp [HasPrefix]

theorem Contains_single (c : Char) (s : Str) : Contains s [c] = true ↔ c ∈ s := by
  induction s with
  | nil => simp [Contains, HasPrefix]
  | cons x s ih =>
    rw [Contains, HasPrefix_single, Bool.or_eq_true, ih, List.mem_cons, beq_iff_eq]
    exact or_congr_left eq_comm

theorem replaceFrom_single (c : Char) (new s : Str) :
    replaceFrom [c] new 0 s = s.flatMap (fun x => if x = c then new else [x]) := by
  induction s with
  | nil => simp [replaceFrom]
  | cons x s ih =>
    by_cases h : x = c <;> simp [replaceFrom, HasPrefix, ih, h]

theorem ReplaceAll_single (c : Char) (new s : Str) :
    ReplaceAll s [c] new = s.flatMap (fun x => if x = c then new else [x]) := by
  simp [ReplaceAll, replaceFrom_single]

theorem EscapeInputValue_eq_flatMap (s : Str) : EscapeInputValue s = s.flatMap escapeChar := by
  unfold EscapeInputValue
  show ReplaceAll (ReplaceAll s ['\''] ['\'', '\'']) ['"'] ['"', '"'] = _
  rw [ReplaceAll_single, ReplaceAll_single]
  induction s with
  | nil => rfl
  | cons x s ih =>
    simp only [List.flatMap_cons, List.flatMap_append, ih]
    congr 1
    by_cases h1 : x = '\''
    · subst h1; decide
    · by_cases h2 : x = '"'
      · subst h2; decide
      · simp [escapeChar, h1, h2]

theorem EscapeInputValue_nil : EscapeInputValue [] = [] := by
  simp [EscapeInputValue_eq_flatMap]

theorem EscapeInputValue_cons (c : Char) (s : Str) :
    EscapeInputValue (c :: s) = escapeChar c ++ EscapeInputValue s := by
  simp [EscapeInputValue_eq_flatMap]

theorem EscapeInputValue_append (a b : Str) :
    EscapeInputValue (a ++ b) = EscapeInputValue a ++ EscapeInputValue b := by
  simp [EscapeInputValue_eq_flatMap]

theorem mem_EscapeInputValue (c : Char) (s : Str) : c ∈ EscapeInputValue s ↔ c ∈ s := by
  induction s with
  | nil => simp [EscapeInputValue_nil]
  | cons x s ih =>
    rw [EscapeInputValue_cons, List.mem_append, ih, List.mem_cons]
    unfold escapeChar
    split_ifs with h1 h2
    · subst h1; simp
    · subst h2; simp
    · simp

theorem EscapeInputValue_of_no_quote (s : Str) (h1 : '\'' ∉ s) (h2 : '"' ∉ s) :
    EscapeInputValue s = s := by
  induction s with
  | nil => exact EscapeInputValue_nil
  | cons x s ih =>
    simp only [List.mem_cons, not_or] at h1 h2
    rw [EscapeInputValue_cons, ih h1.2 h2.2]
    simp [escapeChar, Ne.symm h1.1, Ne.symm h2.1]

theorem splitFrom_single_of_not_mem (c : Char) (s : Str) (h : c ∉ s) :
    splitFrom [c] 0 s = [s] := by
  induction s with
  | nil => simp [splitFrom]
  | cons x s ih =>
    simp only [List.mem_cons, not_or] at h
    simp [splitFrom, HasPrefix, ih h.2, Ne.symm h.1]

theorem splitFrom_single_append (c : Char) (a b : Str) (h : c ∉ a) :
    splitFrom [c] 0 (a ++ c :: b) = a :: splitFrom [c] 0 b := by
  induction a with
  | nil => simp [splitFrom, HasPrefix]
  | cons x a ih =>
    simp only [List.mem_cons, not_or] at h
    simp [splitFrom, HasPrefix, ih h.2, Ne.symm h.1]

theorem Split_single_of_not_mem (c : Char) (s : Str) (h : c ∉ s) : Split s [c] = [s] := by
  simp [Split, splitFrom_single_of_not_mem c s h]

theorem Split_single_append (c : Char) (a b : Str) (h : c ∉ a) :
    Split (a ++ c :: b) [c] = a :: Split b [c] := by
  simp [Split, splitFrom_single_append c a b h]

theorem Split_single_ne_nil (c : Char) (s : Str) : Split s [c] ≠ [] := by
  have h : ∀ s : Str, splitFrom [c] 0 s ≠ [] := by
    intro s
    induction s with
    | nil => simp [splitFrom]
    | cons x s ih =>
      rw [splitFrom]
      split_ifs
      · simp
      · split <;> simp
  simpa [Split] using h s

/-- A string containing `c` is cut at the first `c`. -/
theorem exists_first_cut (c : Char) (s : Str) (h : c ∈ s) :
    ∃ a b, c ∉ a ∧ s = a ++ c :: b := by
  induction s with
  | nil => simp at h
  | cons x s ih =>
    by_cases hx : x = c
    · exact ⟨[], s, by simp, by simp [hx]⟩
    · have hs : c ∈ s := by
        rcases List.mem_cons.mp h with h | h
        · exact absurd h.symm hx
        · exact h
      obtain ⟨a, b, ha, hab⟩ := ih hs
      refine ⟨x :: a, b, ?_, by simp [hab]⟩
      simp [ha, Ne.symm hx]

theorem Sprintf_quote (a : Str) : Sprintf ['"', '%', 's', '"'] [a] = quoted a := by
  simp [Sprintf, quoted]

theorem Sprintf_quote_args (a b : Str) :
    Sprintf ['"', '%', 's', '"', '(', '%', 's'] [a, b] = quoted a ++ '(' :: b := by
  simp [Sprintf, quoted]

theorem Sprintf_dot (a b : Str) : Sprintf ['%', 's', '.', '%', 's'] [a, b] = a ++ '.' :: b := by
  simp [Sprintf]

theorem Sprintf_schemas (q a b : Str) :
    Sprintf "%s, %s %s;".toList [q, a, b] =
      q ++ (", ".toList ++ (a ++ (" ".toList ++ (b ++ ";".toList)))) := by
  simp [Sprintf]

theorem Sprintf_createAll (a : Str) :
    Sprintf pubCreateAllTablesQuery [a] =
      "CREATE publication \"".toList ++ (a ++ "\" FOR ALL TABLES;".toList) := by
  simp [Sprintf, pubCreateAllTablesQuery]

/-! ## Lemmas on the statement builders -/

theorem prepareTableWithArgs_unfold (t : Str) :
    prepareTableWithArgs t =
      if (Split t ['(']).length > 1 then
        Sprintf ['"', '%', 's', '"', '(', '%', 's']
          [(Split t ['(']).getD 0 [], (Split t ['(']).getD 1 []]
      else Sprintf ['"', '%', 's', '"'] [t] := rfl

theorem prepareTableWithSchema_unfold (t : Str) :
    prepareTableWithSchema t =
      match (Split t ['.'])[0]?, (Split t ['.'])[1]? with
      | some t0, some t1 =>
        some (Sprintf ['%', 's', '.', '%', 's']
          [Sprintf ['"', '%', 's', '"'] [t0], prepareTableWithArgs t1])
      | _, _ => none := rfl

theorem prepareTable_unfold (t : Str) :
    prepareTable t =
      if Contains (EscapeInputValue t) ['.'] then prepareTableWithSchema (EscapeInputValue t)
      else some (prepareTableWithArgs (EscapeInputValue t)) := rfl

theorem prepareTableWithArgs_of_not_mem (t : Str) (h : '(' ∉ t) :
    prepareTableWithArgs t = quoted t := by
  rw [prepareTableWithArgs_unfold, Split_single_of_not_mem _ _ h]
  simp [Sprintf_quote]

/-- With a `(` in the token, the quoted part before the first `(` is followed
by `(` and by the piece up to the next `(`. -/
theorem prepareTableWithArgs_append (p r : Str) (h : '(' ∉ p) :
    prepareTableWithArgs (p ++ '(' :: r) = quoted p ++ '(' :: (Split r ['(']).getD 0 [] := by
  rw [prepareTableWithArgs_unfold, Split_single_append _ _ _ h]
  have hne := Split_single_ne_nil '(' r
  cases hs : Split r ['('] with
  | nil => exact absurd hs hne
  | cons x xs => simp [Sprintf_quote_args]

/-- With a `.` in the token, the quoted part before the first `.` is followed
by `.` and by the prepared piece up to the next `.`. -/
theorem prepareTableWithSchema_append (a b : Str) (h : '.' ∉ a) :
    prepareTableWithSchema (a ++ '.' :: b) =
      some (quoted a ++ '.' :: prepareTableWithArgs ((Split b ['.']).getD 0 [])) := by
  rw [prepareTableWithSchema_unfold, Split_single_append _ _ _ h]
  have hne := Split_single_ne_nil '.' b
  cases hs : Split b ['.'] with
  | nil => exact absurd hs hne
  | cons x xs => simp [Sprintf_quote, Sprintf_dot]

theorem prepareTable_isSome (t : Str) : (prepareTable t).isSome = true := by
  rw [prepareTable_unfold]
  split_ifs with h
  · obtain ⟨a, b, ha, hab⟩ := exists_first_cut '.' _ ((Contains_single _ _).mp h)
    rw [hab, prepareTableWithSchema_append a b ha]
    rfl
  · rfl

theorem prepareTables_isSome (tables : List Str) : (prepareTables tables).isSome = true := by
  induction tables with
  | nil => rfl
  | cons t rest ih =>
    have h1 := prepareTable_isSome t
    rw [prepareTables]
    cases h : prepareTable t with
    | none => simp [h] at h1
    | some x =>
      cases h2 : prepareTables rest with
      | none => simp [h2] at ih
      | some y => rfl

theorem prepareTables_singleton (t : Str) :
    prepareTables [t] = (prepareTable t).map (fun x => [x]) := by
  rw [prepareTables]
  cases prepareTable t <;> simp [prepareTables]

theorem prepareSchemas_eq_map (schemas : List Str) :
    prepareSchemas schemas = schemas.map (fun s => quoted (EscapeInputValue s)) := by
  induction schemas with
  | nil => rfl
  | cons s rest ih =>
    show Sprintf ['"', '%', 's', '"'] [EscapeInputValue s] :: prepareSchemas rest = _
    rw [ih, Sprintf_quote]; rfl

theorem escapeChar_cases (x : Char) :
    (escapeChar x = [x, x] ∧ (x = '\'' ∨ x = '"')) ∨
      (escapeChar x = [x] ∧ x ≠ '\'' ∧ x ≠ '"') := by
  unfold escapeChar
  split_ifs with h1 h2
  · subst h1; simp
  · subst h2; simp
  · simp [h1, h2]

theorem runLengthsFrom_escape (c : Char) (hc : c = '\'' ∨ c = '"') (s : Str) :
    ∀ n, Even n → ∀ m ∈ runLengthsFrom c n (EscapeInputValue s), Even m := by
  induction s with
  | nil =>
    intro n hn m hm
    rw [EscapeInputValue_nil, runLengthsFrom] at hm
    split_ifs at hm
    · simp at hm
    · simp at hm; exact hm ▸ hn
  | cons x s ih =>
    intro n hn m hm
    rw [EscapeInputValue_cons] at hm
    have flush : ∀ k ∈ (if n = 0 then [] else [n] : List Nat), Even k := by
      intro k hk
      split_ifs at hk
      · simp at hk
      · simp at hk; exact hk ▸ hn
    by_cases hxc : x = c
    · have he : escapeChar x = [c, c] := by
        rcases escapeChar_cases x with ⟨he, _⟩ | ⟨_, h1, h2⟩
        · rw [he, hxc]
        · rcases hc with hc | hc
          · exact absurd (hxc.trans hc) h1
          · exact absurd (hxc.trans hc) h2
      rw [he] at hm
      simp only [List.cons_append, List.nil_append, runLengthsFrom, if_true] at hm
      exact ih (n + 1 + 1) (by rw [Nat.add_assoc]; exact hn.add (by decide)) m hm
    · have h0 := ih 0 (by decide) m
      rcases escapeChar_cases x with ⟨he, _⟩ | ⟨he, _⟩ <;>
        rw [he] at hm <;>
        simp only [List.cons_append, List.nil_append, runLengthsFrom, if_neg hxc, if_true,
          List.append_nil, List.mem_append] at hm
      · rcases hm with hm | hm
        · exact flush m hm
        · exact h0 hm
      · rcases hm with hm | hm
        · exact flush m hm
        · exact h0 hm

theorem EscapeInputValue_length (s : Str) :
    (EscapeInputValue s).length = s.length + quoteCount s := by
  induction s with
  | nil => simp [EscapeInputValue_nil, quoteCount]
  | cons x s ih =>
    rw [EscapeInputValue_cons, List.length_append, ih]
    rcases escapeChar_cases x with ⟨he, hq⟩ | ⟨he, h1, h2⟩
    · rw [he]; simp [quoteCount, List.countP_cons, hq]; omega
    · rw [he]; simp [quoteCount, List.countP_cons, h1, h2]; omega

theorem formQuery_tables_only (name : Str) (tables : List Str) (qT qS : Str)
    (h : tables ≠ []) :
    formQueryWithTablesAndSchemas name tables [] qT qS =
      (prepareTables tables).map
        (fun p => Sprintf qT [EscapeInputValue name, Join p ",".toList]) := by
  cases tables with
  | nil => exact absurd rfl h
  | cons t rest =>
    unfold formQueryWithTablesAndSchemas
    cases prepareTables (t :: rest) <;> simp

theorem formQuery_both (name : Str) (tables schemas : List Str) (qT qS : Str)
    (h1 : tables ≠ []) (h2 : schemas ≠ []) :
    formQueryWithTablesAndSchemas name tables schemas qT qS =
      (formQueryWithTablesAndSchemas name tables [] qT qS).map
        (fun q => q ++ schemaSuffix schemas) := by
  rw [formQuery_tables_only name tables qT qS h1]
  cases tables with
  | nil => exact absurd rfl h1
  | cons t rest =>
    cases schemas with
    | nil => exact absurd rfl h2
    | cons s more =>
      unfold formQueryWithTablesAndSchemas
      cases prepareTables (t :: rest) with
      | none => simp
      | some p =>
        simp only [List.length_cons, gt_iff_lt, Nat.zero_lt_succ, decide_True, if_true,
          Option.map_some', Option.some.injEq]
        rw [Sprintf_schemas, prepareSchemas_eq_map]
        rfl

theorem formQuery_both_exists (name : Str) (tables schemas : List Str) (qT qS : Str)
    (h1 : tables ≠ []) (h2 : schemas ≠ []) :
    ∃ q, formQueryWithTablesAndSchemas name tables [] qT qS = some q ∧
      formQueryWithTablesAndSchemas name tables schemas qT qS = some (q ++ schemaSuffix schemas) := by
  rw [formQuery_both name tables schemas qT qS h1 h2, formQuery_tables_only name tables qT qS h1]
  have h := prepareTables_isSome tables
  cases hp : prepareTables tables with
  | none => simp [hp] at h
  | some p => exact ⟨_, rfl, rfl⟩

/-! ## The claims -/

/-- C1 (the code departs from the claim): with schemas only, `getPubAlterSetQuery`
is handed the ADD template for schemas, so the statement it returns says
`ADD TABLES IN SCHEMA`, not `SET TABLES IN SCHEMA`, and is the very statement
`getPubAlterAddQuery` returns for the same arguments. -/
theorem alterSet_schemas_only_uses_add_verb :
    getPubAlterSetQuery "sales_pub".toList [] ["public".toList] =
        some "ALTER PUBLICATION \"sales_pub\" ADD TABLES IN SCHEMA \"public\"".toList ∧
      ∀ (name : Str) (schemas : List Str),
        getPubAlterSetQuery name [] schemas = getPubAlterAddQuery name [] schemas :=
  ⟨by decide, fun _ _ => rfl⟩

/-- C2: with tables and schemas both given, each of the create, alter-add and
alter-set builders returns a statement, and it is the statement built for the
tables alone followed by `, TABLES IN SCHEMA `, the quoted escaped schemas
joined by `,` in request order, and `;`. -/
theorem builders_append_schema_clause (name : Str) (tables schemas : List Str)
    (ht : tables ≠ []) (hs : schemas ≠ []) :
    (∃ q, getPubCreateQuery name tables [] = some q ∧
        getPubCreateQuery name tables schemas = some (q ++ schemaSuffix schemas)) ∧
      (∃ q, getPubAlterAddQuery name tables [] = some q ∧
        getPubAlterAddQuery name tables schemas = some (q ++ schemaSuffix schemas)) ∧
      (∃ q, getPubAlterSetQuery name tables [] = some q ∧
        getPubAlterSetQuery name tables schemas = some (q ++ schemaSuffix schemas)) :=
  ⟨formQuery_both_exists name tables schemas _ _ ht hs,
    formQuery_both_exists name tables schemas _ _ ht hs,
    formQuery_both_exists name tables schemas _ _ ht hs⟩

/-- C2 at `tables = ["t1"]`, `schemas = ["s1"]`, with the statement create
returns there. -/
theorem builders_append_schema_clause_witness :
    (["t1".toList] ≠ [] ∧ ["s1".toList] ≠ []) ∧
      ((∃ q, getPubCreateQuery "p".toList ["t1".toList] [] = some q ∧
          getPubCreateQuery "p".toList ["t1".toList] ["s1".toList] =
            some (q ++ schemaSuffix ["s1".toList])) ∧
        (∃ q, getPubAlterAddQuery "p".toList ["t1".toList] [] = some q ∧
          getPubAlterAddQuery "p".toList ["t1".toList] ["s1".toList] =
            some (q ++ schemaSuffix ["s1".toList])) ∧
        (∃ q, getPubAlterSetQuery "p".toList ["t1".toList] [] = some q ∧
          getPubAlterSetQuery "p".toList ["t1".toList] ["s1".toList] =
            some (q ++ schemaSuffix ["s1".toList]))) ∧
      getPubCreateQuery "p".toList ["t1".toList] ["s1".toList] =
        some "CREATE publication \"p\" FOR TABLE \"t1\", TABLES IN SCHEMA \"s1\";".toList :=
  ⟨⟨by decide, by decide⟩,
    builders_append_schema_clause "p".toList ["t1".toList] ["s1".toList] (by decide) (by decide),
    by decide⟩

theorem prepareTable_qualified (s t : Str) (hs : Plain s) (ht : Plain t) :
    prepareTable (s ++ '.' :: t) = some (quoted s ++ '.' :: quoted t) := by
  obtain ⟨hs1, -, hs3, hs4⟩ := hs
  obtain ⟨ht1, ht2, ht3, ht4⟩ := ht
  have hesc : EscapeInputValue (s ++ '.' :: t) = s ++ '.' :: t :=
    EscapeInputValue_of_no_quote _ (by simp [hs3, ht3]) (by simp [hs4, ht4])
  have hdot : Contains (s ++ '.' :: t) ['.'] = true := (Contains_single _ _).mpr (by simp)
  rw [prepareTable_unfold, hesc, if_pos hdot, prepareTableWithSchema_append s t hs1,
    Split_single_of_not_mem _ _ ht1]
  simp [prepareTableWithArgs_of_not_mem t ht2]

theorem prepareTable_with_args (t r : Str) (ht : Plain t) (hr : Plain r) :
    prepareTable (t ++ '(' :: r) = some (quoted t ++ '(' :: r) := by
  obtain ⟨ht1, ht2, ht3, ht4⟩ := ht
  obtain ⟨hr1, hr2, hr3, hr4⟩ := hr
  have hesc : EscapeInputValue (t ++ '(' :: r) = t ++ '(' :: r :=
    EscapeInputValue_of_no_quote _ (by simp [ht3, hr3]) (by simp [ht4, hr4])
  have hdot : ¬ Contains (t ++ '(' :: r) ['.'] = true := by
    rw [Contains_single]; simp [ht1, hr1]
  rw [prepareTable_unfold, hesc, if_neg hdot, prepareTableWithArgs_append t r ht2,
    Split_single_of_not_mem _ _ hr2]
  simp

theorem prepareTable_qualified_with_args (s t r : Str) (hs : Plain s) (ht : Plain t)
    (hr : Plain r) :
    prepareTable (s ++ '.' :: (t ++ '(' :: r)) = some (quoted s ++ '.' :: (quoted t ++ '(' :: r)) := by
  obtain ⟨hs1, -, hs3, hs4⟩ := hs
  obtain ⟨ht1, ht2, ht3, ht4⟩ := ht
  obtain ⟨hr1, hr2, hr3, hr4⟩ := hr
  have hesc : EscapeInputValue (s ++ '.' :: (t ++ '(' :: r)) = s ++ '.' :: (t ++ '(' :: r) :=
    EscapeInputValue_of_no_quote _ (by simp [hs3, ht3, hr3]) (by simp [hs4, ht4, hr4])
  have hdot : Contains (s ++ '.' :: (t ++ '(' :: r)) ['.'] = true :=
    (Contains_single _ _).mpr (by simp)
  have hnd : '.' ∉ t ++ '(' :: r := by simp [ht1, hr1]
  rw [prepareTable_unfold, hesc, if_pos hdot, prepareTableWithSchema_append s _ hs1,
    Split_single_of_not_mem _ _ hnd]
  simp only [List.getD_cons_zero]
  rw [prepareTableWithArgs_append t r ht2, Split_single_of_not_mem _ _ hr2]
  simp

/-- C3: for a schema name `s`, a table name `t` and an argument remainder `r`
without `.`, `(`, single quote or double quote, `prepareTables` on the one
token maps `s.t` to `"s"."t"`, `t(r` to `"t"(r` and `s.t(r` to `"s"."t"(r`. -/
theorem prepareTables_plain_tokens (s t r : Str) (hs : Plain s) (ht : Plain t) (hr : Plain r) :
    prepareTables [s ++ '.' :: t] = some [quoted s ++ '.' :: quoted t] ∧
      prepareTables [t ++ '(' :: r] = some [quoted t ++ '(' :: r] ∧
      prepareTables [s ++ '.' :: (t ++ '(' :: r)] =
        some [quoted s ++ '.' :: (quoted t ++ '(' :: r)] := by
  refine ⟨?_, ?_, ?_⟩
  · rw [prepareTables_singleton, prepareTable_qualified s t hs ht]; rfl
  · rw [prepareTables_singleton, prepareTable_with_args t r ht hr]; rfl
  · rw [prepareTables_singleton, prepareTable_qualified_with_args s t r hs ht hr]; rfl

/-- C3 at the tokens of the specification: `public.orders`, `orders(id,name)`
and `public.orders(id)`. -/
theorem prepareTables_plain_tokens_witness :
    (Plain "public".toList ∧ Plain "orders".toList ∧ Plain "id,name)".toList ∧
        Plain "id)".toList) ∧
      prepareTables ["public.orders".toList] = some ["\"public\".\"orders\"".toList] ∧
      prepareTables ["orders(id,name)".toList] = some ["\"orders\"(id,name)".toList] ∧
      prepareTables ["public.orders(id)".toList] = some ["\"public\".\"orders\"(id)".toList] :=
  ⟨⟨by decide, by decide, by decide, by decide⟩,
    (prepareTables_plain_tokens "public".toList "orders".toList "id,name)".toList
      (by decide) (by decide) (by decide)).1,
    (prepareTables_plain_tokens "public".toList "orders".toList "id,name)".toList
      (by decide) (by decide) (by decide)).2.1,
    (prepareTables_plain_tokens "public".toList "orders".toList "id)".toList
      (by decide) (by decide) (by decide)).2.2⟩

/-- C4 (the code departs from the claim): `prepareTableWithSchema` splits the
token at every `.` and uses only the first two pieces, so what follows a second
`.` is dropped: `mydb.public.orders` is prepared as `"mydb"."public"`, where
splitting at the first `.` only would give `"mydb"."public.orders"`. -/
theorem prepareTables_drops_after_second_dot :
    prepareTables ["mydb.public.orders".toList] = some ["\"mydb\".\"public\"".toList] ∧
      prepareTables ["mydb.public.orders".toList] ≠
        some [quoted "mydb".toList ++ '.' :: prepareTableWithArgs "public.orders".toList] := by
  decide

/-- C5 as stated fails: the token is escaped as a whole before it is split, so
the quotes of the remainder are doubled too.  For `orders(id) WHERE kind = 'a'`
the prepared token ends in `''a''`, not in the remainder as supplied. -/
theorem prepareTables_escapes_remainder :
    prepareTables ["orders(id) WHERE kind = 'a'".toList] =
        some ["\"orders\"(id) WHERE kind = ''a''".toList] ∧
      prepareTables ["orders(id) WHERE kind = 'a'".toList] ≠
        some [quoted (EscapeInputValue "orders".toList) ++ '(' :: "id) WHERE kind = 'a'".toList] := by
  decide

/-- C5, amended: for a token `p(r` with no `.` and no further `(`, the prepared
token is the quoted escaped `p`, then `(`, then the escaped `r`. -/
theorem prepareTables_one_paren (p r : Str) (hp1 : '.' ∉ p) (hp2 : '(' ∉ p)
    (hr1 : '.' ∉ r) (hr2 : '(' ∉ r) :
    prepareTables [p ++ '(' :: r] =
      some [quoted (EscapeInputValue p) ++ '(' :: EscapeInputValue r] := by
  have hparen : EscapeInputValue ['('] = ['('] := by decide
  have hesc : EscapeInputValue (p ++ '(' :: r) =
      EscapeInputValue p ++ '(' :: EscapeInputValue r := by
    rw [EscapeInputValue_append, ← List.singleton_append, EscapeInputValue_append, hparen]
    rfl
  have hdot : ¬ Contains (EscapeInputValue p ++ '(' :: EscapeInputValue r) ['.'] = true := by
    rw [Contains_single]
    simp [mem_EscapeInputValue, hp1, hr1]
  have hp2e : '(' ∉ EscapeInputValue p := by rwa [mem_EscapeInputValue]
  have hr2e : '(' ∉ EscapeInputValue r := by rwa [mem_EscapeInputValue]
  rw [prepareTables_singleton, prepareTable_unfold, hesc, if_neg hdot,
    prepareTableWithArgs_append _ _ hp2e, Split_single_of_not_mem _ _ hr2e]
  rfl

/-- C5, amended, at the token `orders(id) WHERE kind = 'a'`. -/
theorem prepareTables_one_paren_witness :
    ('.' ∉ "orders".toList ∧ '(' ∉ "orders".toList ∧ '.' ∉ "id) WHERE kind = 'a'".toList ∧
        '(' ∉ "id) WHERE kind = 'a'".toList) ∧
      prepareTables ["orders".toList ++ '(' :: "id) WHERE kind = 'a'".toList] =
        some [quoted (EscapeInputValue "orders".toList) ++
          '(' :: EscapeInputValue "id) WHERE kind = 'a'".toList] :=
  ⟨⟨by decide, by decide, by decide, by decide⟩,
    prepareTables_one_paren "orders".toList "id) WHERE kind = 'a'".toList
      (by decide) (by decide) (by decide) (by decide)⟩

/-- C6: `EscapeInputValue s` is `s` with every single quote replaced by two
single quotes and every double quote by two double quotes; every maximal run
of double quotes and every maximal run of single quotes in it has even length;
and its length is the length of `s` plus the number of quotes in `s`. -/
theorem EscapeInputValue_doubles_quotes (s : Str) :
    EscapeInputValue s = s.flatMap escapeChar ∧
      (∀ m ∈ runLengths '"' (EscapeInputValue s), Even m) ∧
      (∀ m ∈ runLengths '\'' (EscapeInputValue s), Even m) ∧
      (EscapeInputValue s).length = s.length + quoteCount s :=
  ⟨EscapeInputValue_eq_flatMap s,
    runLengthsFrom_escape '"' (Or.inr rfl) s 0 (by decide),
    runLengthsFrom_escape '\'' (Or.inl rfl) s 0 (by decide),
    EscapeInputValue_length s⟩

/-! ## Lemmas on the controller -/

theorem validatePublication_of_nonempty (name db : Str) (hn : name ≠ []) (hd : db ≠ []) :
    validatePublication name db = none := by
  cases name with
  | nil => exact absurd rfl hn
  | cons a n =>
    cases db with
    | nil => exact absurd rfl hd
    | cons b d => simp [validatePublication]

theorem connectionsOf_append (a b : List Event) :
    connectionsOf (a ++ b) = connectionsOf a ++ connectionsOf b := by
  induction a with
  | nil => rfl
  | cons e a ih => cases e <;> simp [connectionsOf, ih]

theorem executedOf_append (a b : List Event) :
    executedOf (a ++ b) = executedOf a ++ executedOf b := by
  induction a with
  | nil => rfl
  | cons e a ih => cases e <;> simp [executedOf, ih]

theorem GetConnectionToDb_of_nonempty {σ : Type} (pc : Client σ) (s : σ) (db : Str)
    (hd : db ≠ []) :
    GetConnectionToDb pc s db =
      match pc.connect s db with
      | some msg => (.error (.other msg), [.connect db])
      | none => (.ok db, [.connect db]) := by
  simp [GetConnectionToDb, hd]

/-- The existence check on a named database, case by case. -/
theorem isPublicationExists_eq {σ : Type} (pc : Client σ) (s : σ) (name db : Str)
    (hd : db ≠ []) :
    isPublicationExists pc s name db =
      match pc.connect s db with
      | some msg =>
        if Contains msg "(SQLSTATE 3D000)".toList then (.returned false, [.connect db])
        else (.panicked (.other msg), [.connect db])
      | none =>
        match pc.queryPublication s db name with
        | .error msg =>
          (.panicked (.other msg), [.connect db, .query db getPubGetQuery [name], .close db])
        | .ok none => (.returned false, [.connect db, .query db getPubGetQuery [name], .close db])
        | .ok (some _) =>
          (.returned true, [.connect db, .query db getPubGetQuery [name], .close db]) := by
  unfold isPublicationExists getPublicationInternal
  rw [GetConnectionToDb_of_nonempty pc s db hd]
  cases hc : pc.connect s db with
  | some msg =>
    simp only [GoError.Error]
    split_ifs with h3 <;> simp [isNotFoundErr]
  | none =>
    cases hq : pc.queryPublication s db name with
    | error e => simp [hq]
    | ok row =>
      cases row with
      | none => simp [hq, isNotFoundErr]
      | some r => simp [hq]

theorem isPublicationExists_of_absent {σ : Type} (pc : Client σ) (s : σ) (name db : Str)
    (hd : db ≠ []) (h : absent pc s name db = true) :
    ∃ ev, isPublicationExists pc s name db = (.returned false, ev) ∧
      connectionsOf ev = [db] ∧ executedOf ev = [] := by
  unfold absent at h
  rw [isPublicationExists_eq pc s name db hd]
  cases hc : pc.connect s db with
  | some msg =>
    rw [hc] at h
    simp only at h
    exact ⟨[.connect db], by simp only [h, if_true], rfl, rfl⟩
  | none =>
    rw [hc] at h
    cases hq : pc.queryPublication s db name with
    | error e => simp [hq] at h
    | ok row =>
      cases row with
      | some r => simp [hq] at h
      | none => exact ⟨_, rfl, rfl, rfl⟩

theorem isPublicationExists_of_present {σ : Type} (pc : Client σ) (s : σ) (name db : Str)
    (hd : db ≠ []) (h : present pc s name db = true) :
    ∃ ev, isPublicationExists pc s name db = (.returned true, ev) ∧
      connectionsOf ev = [db] ∧ executedOf ev = [] := by
  unfold present at h
  rw [isPublicationExists_eq pc s name db hd]
  cases hc : pc.connect s db with
  | some msg => simp [hc] at h
  | none =>
    rw [hc] at h
    cases hq : pc.queryPublication s db name with
    | error e => simp [hq] at h
    | ok row =>
      cases row with
      | none => simp [hq] at h
      | some r => exact ⟨_, rfl, rfl, rfl⟩

theorem Sprintf_nothingToAdd (a b : Str) :
    Sprintf "Nothing to add to publication %s in database %s".toList [a, b] =
      nothingToAdd a b := by
  simp [Sprintf, nothingToAdd]

theorem alterAdd_of_absent {σ : Type} (pc : Client σ) (s : σ) (request : CommonRequest)
    (hn : request.PubName ≠ []) (hd : request.Database ≠ [])
    (ha : absent pc s request.PubName request.Database = true) :
    LookupOnly (alterAddPublication pc s request) s request.Database (some isNotFoundErr) := by
  obtain ⟨ev, he, h1, h2⟩ := isPublicationExists_of_absent pc s _ _ hd ha
  unfold alterAddPublication
  simp only [validatePublication_of_nonempty _ _ hn hd, he]
  exact ⟨rfl, rfl, h1, h2⟩

theorem alterSet_of_absent {σ : Type} (pc : Client σ) (s : σ) (request : CommonRequest)
    (hn : request.PubName ≠ []) (hd : request.Database ≠ [])
    (ha : absent pc s request.PubName request.Database = true) :
    LookupOnly (alterSetPublication pc s request) s request.Database (some isNotFoundErr) := by
  obtain ⟨ev, he, h1, h2⟩ := isPublicationExists_of_absent pc s _ _ hd ha
  unfold alterSetPublication
  simp only [validatePublication_of_nonempty _ _ hn hd, he]
  exact ⟨rfl, rfl, h1, h2⟩

theorem alterAdd_nothing_of_present {σ : Type} (pc : Client σ) (s : σ) (name db : Str)
    (hn : name ≠ []) (hd : db ≠ []) (hp : present pc s name db = true) :
    LookupOnly (alterAddPublication pc s ⟨name, db, [], []⟩) s db
      (some (.other (nothingToAdd name db))) := by
  obtain ⟨ev, he, h1, h2⟩ := isPublicationExists_of_present pc s _ _ hd hp
  unfold alterAddPublication
  simp only [validatePublication_of_nonempty _ _ hn hd, he, List.length_nil, and_self, if_true,
    Sprintf_nothingToAdd]
  exact ⟨rfl, rfl, h1, h2⟩

theorem alterSet_nothing_of_present {σ : Type} (pc : Client σ) (s : σ) (name db : Str)
    (hn : name ≠ []) (hd : db ≠ []) (hp : present pc s name db = true) :
    LookupOnly (alterSetPublication pc s ⟨name, db, [], []⟩) s db
      (some (.other (nothingToAdd name db))) := by
  obtain ⟨ev, he, h1, h2⟩ := isPublicationExists_of_present pc s _ _ hd hp
  unfold alterSetPublication
  simp only [validatePublication_of_nonempty _ _ hn hd, he, List.length_nil, and_self, if_true,
    Sprintf_nothingToAdd]
  exact ⟨rfl, rfl, h1, h2⟩

/-- C7 as stated fails: the statement create executes for `sales_pub` spells
the keyword as the template does, `CREATE publication "sales_pub" FOR ALL TABLES;`,
which is not the string `CREATE PUBLICATION "sales_pub" FOR ALL TABLES;`; and
on a server without the database the lookup finds no publication, the
connection for the statement fails, and create panics with nothing executed. -/
theorem createPublication_all_tables_keyword_case :
    executedOf (createPublication miniPg emptySales
        ⟨"sales_pub".toList, "salesdb".toList, [], []⟩).events =
        ["CREATE publication \"sales_pub\" FOR ALL TABLES;".toList] ∧
      executedOf (createPublication miniPg emptySales
        ⟨"sales_pub".toList, "salesdb".toList, [], []⟩).events ≠
        ["CREATE PUBLICATION \"sales_pub\" FOR ALL TABLES;".toList] ∧
      absent miniPg ⟨[], []⟩ "sales_pub".toList "salesdb".toList = true ∧
      (createPublication miniPg ⟨[], []⟩
        ⟨"sales_pub".toList, "salesdb".toList, [], []⟩).outcome =
        .panicked (.other (MiniPg.noDatabase "salesdb".toList)) ∧
      executedOf (createPublication miniPg ⟨[], []⟩
        ⟨"sales_pub".toList, "salesdb".toList, [], []⟩).events = [] := by
  decide

/-- C7, amended: for a non-empty name and database, when the lookup finds no
publication and the database accepts connections, create without tables and
schemas executes exactly one statement,
`CREATE publication "<escaped name>" FOR ALL TABLES;`, and leaves the server in
the state that statement produces. -/
theorem createPublication_all_tables {σ : Type} (pc : Client σ) (s : σ) (name db : Str)
    (hn : name ≠ []) (hd : db ≠ []) (hc : pc.connect s db = none)
    (ha : absent pc s name db = true) :
    executedOf (createPublication pc s ⟨name, db, [], []⟩).events =
        ["CREATE publication \"".toList ++
          (EscapeInputValue name ++ "\" FOR ALL TABLES;".toList)] ∧
      (createPublication pc s ⟨name, db, [], []⟩).state =
        (pc.exec s db ("CREATE publication \"".toList ++
          (EscapeInputValue name ++ "\" FOR ALL TABLES;".toList))).1 := by
  obtain ⟨ev, he, -, h2⟩ := isPublicationExists_of_absent pc s _ _ hd ha
  have hq : getPubCreateQuery name [] [] = some [] := rfl
  unfold createPublication
  simp only [validatePublication_of_nonempty _ _ hn hd, he,
    GetConnectionToDb_of_nonempty pc s db hd, hc, List.length_nil, and_self, if_true, hq,
    getPubCreateAllTablesQuery, Sprintf_createAll, execAndClose]
  cases hx : pc.exec s db ("CREATE publication \"".toList ++
      (EscapeInputValue name ++ "\" FOR ALL TABLES;".toList)) with
  | mk s' err =>
    cases err <;> simp [executedOf_append, executedOf, h2]

/-- C7, amended, on a server with the database `salesdb` and no publication. -/
theorem createPublication_all_tables_witness :
    ("sales_pub".toList ≠ [] ∧ "salesdb".toList ≠ [] ∧
        miniPg.connect emptySales "salesdb".toList = none ∧
        absent miniPg emptySales "sales_pub".toList "salesdb".toList = true) ∧
      executedOf (createPublication miniPg emptySales
          ⟨"sales_pub".toList, "salesdb".toList, [], []⟩).events =
        ["CREATE publication \"".toList ++
          (EscapeInputValue "sales_pub".toList ++ "\" FOR ALL TABLES;".toList)] ∧
      (createPublication miniPg emptySales ⟨"sales_pub".toList, "salesdb".toList, [], []⟩).state =
        (miniPg.exec emptySales "salesdb".toList ("CREATE publication \"".toList ++
          (EscapeInputValue "sales_pub".toList ++ "\" FOR ALL TABLES;".toList))).1 :=
  ⟨⟨by decide, by decide, by decide, by decide⟩,
    createPublication_all_tables miniPg emptySales "sales_pub".toList "salesdb".toList
      (by decide) (by decide) (by decide) (by decide)⟩

/-- C8 (the code departs from the claim): for the name `a'b` the statement
names the publication `"a''b"`, which the server stores as `a''b`, while the
lookup asks for `a'b`.  The first create succeeds; the second finds nothing,
executes the same CREATE again and panics on the duplicate-object error. -/
theorem createPublication_twice_single_quote :
    (createPublication miniPg emptySales ⟨"a'b".toList, "salesdb".toList, [], []⟩).outcome =
        .returned none ∧
      (createPublication miniPg emptySales ⟨"a'b".toList, "salesdb".toList, [], []⟩).state =
        ⟨["salesdb".toList], [("salesdb".toList, "a''b".toList, " FOR ALL TABLES;".toList)]⟩ ∧
      (createPublication miniPg
          (createPublication miniPg emptySales
            ⟨"a'b".toList, "salesdb".toList, [], []⟩).state
          ⟨"a'b".toList, "salesdb".toList, [], []⟩).outcome =
        .panicked (.other (MiniPg.duplicate "a''b".toList)) ∧
      executedOf (createPublication miniPg
          (createPublication miniPg emptySales
            ⟨"a'b".toList, "salesdb".toList, [], []⟩).state
          ⟨"a'b".toList, "salesdb".toList, [], []⟩).events =
        ["CREATE publication \"a''b\" FOR ALL TABLES;".toList] := by
  decide

/-- C9 as stated fails: on a server without the publication, alter-add and
alter-set return the not-found error after a connection to the database has
been attempted for the lookup. -/
theorem alter_absent_connects :
    (alterAddPublication miniPg emptySales
        ⟨"sales_pub".toList, "salesdb".toList, ["orders".toList], []⟩).outcome =
        .returned (some isNotFoundErr) ∧
      connectionsOf (alterAddPublication miniPg emptySales
        ⟨"sales_pub".toList, "salesdb".toList, ["orders".toList], []⟩).events =
        ["salesdb".toList] ∧
      (alterSetPublication miniPg emptySales
        ⟨"sales_pub".toList, "salesdb".toList, ["orders".toList], []⟩).outcome =
        .returned (some isNotFoundErr) ∧
      connectionsOf (alterSetPublication miniPg emptySales
        ⟨"sales_pub".toList, "salesdb".toList, ["orders".toList], []⟩).events =
        ["salesdb".toList] := by
  decide

/-- C9, amended: for a non-empty name and database, when the lookup finds no
publication, alter-add and alter-set return the not-found error, leave the
server state unchanged, attempt exactly one connection (the lookup's) and
execute no statement. -/
theorem alter_absent_not_found {σ : Type} (pc : Client σ) (s : σ) (request : CommonRequest)
    (hn : request.PubName ≠ []) (hd : request.Database ≠ [])
    (ha : absent pc s request.PubName request.Database = true) :
    LookupOnly (alterAddPublication pc s request) s request.Database (some isNotFoundErr) ∧
      LookupOnly (alterSetPublication pc s request) s request.Database (some isNotFoundErr) :=
  ⟨alterAdd_of_absent pc s request hn hd ha, alterSet_of_absent pc s request hn hd ha⟩

/-- C9, amended, on a server with the database `salesdb` and no publication. -/
theorem alter_absent_not_found_witness :
    ("sales_pub".toList ≠ [] ∧ "salesdb".toList ≠ [] ∧
        absent miniPg emptySales "sales_pub".toList "salesdb".toList = true) ∧
      LookupOnly
        (alterAddPublication miniPg emptySales
          ⟨"sales_pub".toList, "salesdb".toList, ["orders".toList], []⟩)
        emptySales "salesdb".toList (some isNotFoundErr) ∧
      LookupOnly
        (alterSetPublication miniPg emptySales
          ⟨"sales_pub".toList, "salesdb".toList, ["orders".toList], []⟩)
        emptySales "salesdb".toList (some isNotFoundErr) :=
  ⟨⟨by decide, by decide, by decide⟩,
    alter_absent_not_found miniPg emptySales
      ⟨"sales_pub".toList, "salesdb".toList, ["orders".toList], []⟩
      (by decide) (by decide) (by decide)⟩

/-- C10 as stated fails: without tables and schemas, alter-add on a server
without the publication returns the not-found error, not the validation error,
and on a server with the publication the validation error comes after a
connection for the lookup; alter-set does the same. -/
theorem alter_nothing_to_add_after_lookup :
    (alterAddPublication miniPg emptySales
        ⟨"sales_pub".toList, "salesdb".toList, [], []⟩).outcome =
        .returned (some isNotFoundErr) ∧
      (alterSetPublication miniPg emptySales
        ⟨"sales_pub".toList, "salesdb".toList, [], []⟩).outcome =
        .returned (some isNotFoundErr) ∧
      (alterAddPublication miniPg withSalesPub
        ⟨"sales_pub".toList, "salesdb".toList, [], []⟩).events =
        [.connect "salesdb".toList,
          .query "salesdb".toList getPubGetQuery ["sales_pub".toList],
          .close "salesdb".toList] ∧
      (alterSetPublication miniPg withSalesPub
        ⟨"sales_pub".toList, "salesdb".toList, [], []⟩).events =
        [.connect "salesdb".toList,
          .query "salesdb".toList getPubGetQuery ["sales_pub".toList],
          .close "salesdb".toList] := by
  decide

/-- C10, amended: for a non-empty name and database and a request without
tables and schemas, alter-add and alter-set first look the publication up
(one connection).  When the lookup finds it they return the error
`Nothing to add to publication <name> in database <database>`; when it finds
none they return the not-found error.  Either way the server state is
unchanged, no further connection is attempted and no statement is executed. -/
theorem alter_nothing_to_add {σ : Type} (pc : Client σ) (s : σ) (name db : Str)
    (hn : name ≠ []) (hd : db ≠ []) :
    (present pc s name db = true →
        LookupOnly (alterAddPublication pc s ⟨name, db, [], []⟩) s db
            (some (.other (nothingToAdd name db))) ∧
          LookupOnly (alterSetPublication pc s ⟨name, db, [], []⟩) s db
            (some (.other (nothingToAdd name db)))) ∧
      (absent pc s name db = true →
        LookupOnly (alterAddPublication pc s ⟨name, db, [], []⟩) s db (some isNotFoundErr) ∧
          LookupOnly (alterSetPublication pc s ⟨name, db, [], []⟩) s db (some isNotFoundErr)) :=
  ⟨fun hp => ⟨alterAdd_nothing_of_present pc s name db hn hd hp,
      alterSet_nothing_of_present pc s name db hn hd hp⟩,
    fun ha => ⟨alterAdd_of_absent pc s ⟨name, db, [], []⟩ hn hd ha,
      alterSet_of_absent pc s ⟨name, db, [], []⟩ hn hd ha⟩⟩

/-- C10, amended, on a server with the database `salesdb` and the publication
`sales_pub`. -/
theorem alter_nothing_to_add_witness :
    ("sales_pub".toList ≠ [] ∧ "salesdb".toList ≠ [] ∧
        present miniPg withSalesPub "sales_pub".toList "salesdb".toList = true) ∧
      LookupOnly
        (alterAddPublication miniPg withSalesPub ⟨"sales_pub".toList, "salesdb".toList, [], []⟩)
        withSalesPub "salesdb".toList
        (some (.other "Nothing to add to publication sales_pub in database salesdb".toList)) ∧
      LookupOnly
        (alterSetPublication miniPg withSalesPub ⟨"sales_pub".toList, "salesdb".toList, [], []⟩)
        withSalesPub "salesdb".toList
        (some (.other "Nothing to add to publication sales_pub in database salesdb".toList)) :=
  ⟨⟨by decide, by decide, by decide⟩,
    (alter_nothing_to_add miniPg withSalesPub "sales_pub".toList "salesdb".toList
      (by decide) (by decide)).1 (by decide)⟩

/-! ## Lemmas for drop, alter and validation -/

theorem formQuery_isSome (name : Str) (tables schemas : List Str) (qT qS : Str) :
    (formQueryWithTablesAndSchemas name tables schemas qT qS).isSome = true := by
  have h := prepareTables_isSome tables
  unfold formQueryWithTablesAndSchemas
  cases hp : prepareTables tables with
  | none => simp [hp] at h
  | some p =>
    simp only
    split_ifs <;> rfl

theorem connect_of_present {σ : Type} (pc : Client σ) (s : σ) (name db : Str)
    (h : present pc s name db = true) : pc.connect s db = none := by
  unfold present at h
  cases hc : pc.connect s db with
  | none => rfl
  | some msg => simp [hc] at h

theorem validatePublication_eq_none_iff (name db : Str) :
    validatePublication name db = none ↔ name ≠ [] ∧ db ≠ [] := by
  cases name <;> cases db <;> simp [validatePublication]

theorem alter_tail {σ : Type} (pc : Client σ) (s : σ) (db q : Str) (ev : List Event)
    (h2 : executedOf ev = []) :
    (execAndClose pc s db ev (some q) true).outcome = alterOutcome (pc.exec s db q).2 ∧
      (execAndClose pc s db ev (some q) true).state = (pc.exec s db q).1 ∧
      executedOf (execAndClose pc s db ev (some q) true).events = [q] := by
  unfold execAndClose alterOutcome
  cases hx : pc.exec s db q with
  | mk s' err =>
    cases err with
    | none => simp [hx, executedOf_append, executedOf, h2]
    | some msg =>
      simp only [hx, Bool.true_and]
      split_ifs <;> simp [executedOf_append, executedOf, h2]

theorem alterAdd_exec {σ : Type} (pc : Client σ) (s : σ) (name db : Str)
    (tables schemas : List Str) (hn : name ≠ []) (hd : db ≠ [])
    (hp : present pc s name db = true) (hne : tables ≠ [] ∨ schemas ≠ []) :
    ∃ q, getPubAlterAddQuery name tables schemas = some q ∧
      (alterAddPublication pc s ⟨name, db, tables, schemas⟩).outcome =
        alterOutcome (pc.exec s db q).2 ∧
      (alterAddPublication pc s ⟨name, db, tables, schemas⟩).state = (pc.exec s db q).1 ∧
      executedOf (alterAddPublication pc s ⟨name, db, tables, schemas⟩).events = [q] := by
  obtain ⟨ev, he, -, h2⟩ := isPublicationExists_of_present pc s _ _ hd hp
  have hc := connect_of_present pc s name db hp
  have hs := formQuery_isSome name tables schemas pubAlterAddWithTablesQuery
    pubAlterAddWithSchemasQuery
  have hlen : ¬ (tables.length = 0 ∧ schemas.length = 0) := by
    simp only [List.length_eq_zero]
    tauto
  cases hq : getPubAlterAddQuery name tables schemas with
  | none => simp [getPubAlterAddQuery] at hq; simp [hq] at hs
  | some q =>
    refine ⟨q, rfl, ?_⟩
    unfold alterAddPublication
    simp only [validatePublication_of_nonempty _ _ hn hd, he, hlen, if_false,
      GetConnectionToDb_of_nonempty pc s db hd, hc, hq]
    exact alter_tail pc s db q _ (by simp [executedOf_append, executedOf, h2])

theorem alterSet_exec {σ : Type} (pc : Client σ) (s : σ) (name db : Str)
    (tables schemas : List Str) (hn : name ≠ []) (hd : db ≠ [])
    (hp : present pc s name db = true) (hne : tables ≠ [] ∨ schemas ≠ []) :
    ∃ q, getPubAlterSetQuery name tables schemas = some q ∧
      (alterSetPublication pc s ⟨name, db, tables, schemas⟩).outcome =
        alterOutcome (pc.exec s db q).2 ∧
      (alterSetPublication pc s ⟨name, db, tables, schemas⟩).state = (pc.exec s db q).1 ∧
      executedOf (alterSetPublication pc s ⟨name, db, tables, schemas⟩).events = [q] := by
  obtain ⟨ev, he, -, h2⟩ := isPublicationExists_of_present pc s _ _ hd hp
  have hc := connect_of_present pc s name db hp
  have hs := formQuery_isSome name tables schemas pubAlterSetWithTablesQuery
    pubAlterAddWithSchemasQuery
  have hlen : ¬ (tables.length = 0 ∧ schemas.length = 0) := by
    simp only [List.length_eq_zero]
    tauto
  cases hq : getPubAlterSetQuery name tables schemas with
  | none => simp [getPubAlterSetQuery] at hq; simp [hq] at hs
  | some q =>
    refine ⟨q, rfl, ?_⟩
    unfold alterSetPublication
    simp only [validatePublication_of_nonempty _ _ hn hd, he, hlen, if_false,
      GetConnectionToDb_of_nonempty pc s db hd, hc, hq]
    exact alter_tail pc s db q _ (by simp [executedOf_append, executedOf, h2])

/-- C11: for a non-empty name and database, when the lookup finds no
publication (the query has no row, or the database does not exist, SQLSTATE
3D000), drop returns success, executes no statement and leaves the server
state unchanged; the one connection attempted is the lookup's. -/
theorem drop_absent_is_noop {σ : Type} (pc : Client σ) (s : σ) (request : CommonRequest)
    (hn : request.PubName ≠ []) (hd : request.Database ≠ [])
    (ha : absent pc s request.PubName request.Database = true) :
    LookupOnly (dropPublication pc s request) s request.Database none := by
  obtain ⟨ev, he, h1, h2⟩ := isPublicationExists_of_absent pc s _ _ hd ha
  unfold dropPublication
  simp only [validatePublication_of_nonempty _ _ hn hd, he]
  exact ⟨rfl, rfl, h1, h2⟩

/-- C11 on a server without the database `salesdb` (SQLSTATE 3D000). -/
theorem drop_absent_is_noop_witness :
    ("sales_pub".toList ≠ [] ∧ "salesdb".toList ≠ [] ∧
        absent miniPg noDatabases "sales_pub".toList "salesdb".toList = true) ∧
      LookupOnly
        (dropPublication miniPg noDatabases ⟨"sales_pub".toList, "salesdb".toList, [], []⟩)
        noDatabases "salesdb".toList none :=
  ⟨⟨by decide, by decide, by decide⟩,
    drop_absent_is_noop miniPg noDatabases ⟨"sales_pub".toList, "salesdb".toList, [], []⟩
      (by decide) (by decide) (by decide)⟩

/-- C12: for a non-empty name and database, a publication the lookup finds and
a request with tables or schemas, alter-add and alter-set build a statement
and execute it, once.  When the execution fails with a message containing
`(SQLSTATE 42710)` that error is returned; when it fails with any other message
the operation panics with it; when it succeeds the operation returns
success. -/
theorem alter_exec_outcomes {σ : Type} (pc : Client σ) (s : σ) (name db : Str)
    (tables schemas : List Str) (hn : name ≠ []) (hd : db ≠ [])
    (hp : present pc s name db = true) (hne : tables ≠ [] ∨ schemas ≠ []) :
    (∃ q, getPubAlterAddQuery name tables schemas = some q ∧
        (alterAddPublication pc s ⟨name, db, tables, schemas⟩).outcome =
          alterOutcome (pc.exec s db q).2 ∧
        (alterAddPublication pc s ⟨name, db, tables, schemas⟩).state = (pc.exec s db q).1 ∧
        executedOf (alterAddPublication pc s ⟨name, db, tables, schemas⟩).events = [q]) ∧
      (∃ q, getPubAlterSetQuery name tables schemas = some q ∧
        (alterSetPublication pc s ⟨name, db, tables, schemas⟩).outcome =
          alterOutcome (pc.exec s db q).2 ∧
        (alterSetPublication pc s ⟨name, db, tables, schemas⟩).state = (pc.exec s db q).1 ∧
        executedOf (alterSetPublication pc s ⟨name, db, tables, schemas⟩).events = [q]) ∧
      (∀ msg, alterOutcome (some msg) =
        if Contains msg "(SQLSTATE 42710)".toList then .returned (some (.other msg))
        else .panicked (.other msg)) ∧
      alterOutcome none = .returned none :=
  ⟨alterAdd_exec pc s name db tables schemas hn hd hp hne,
    alterSet_exec pc s name db tables schemas hn hd hp hne, fun _ => rfl, rfl⟩

/-- C12 on a server where the publication is found, with the three results of
executing `ALTER PUBLICATION "sales_pub" ADD TABLE "orders"`: a duplicate-object
error is returned, another error is a panic, no error is success. -/
theorem alter_exec_outcomes_witness :
    ("sales_pub".toList ≠ [] ∧ "salesdb".toList ≠ [] ∧
        present (scripted (some (MiniPg.duplicate "orders".toList))) ()
          "sales_pub".toList "salesdb".toList = true ∧
        (["orders".toList] ≠ [] ∨ ([] : List Str) ≠ [])) ∧
      (∃ q, getPubAlterAddQuery "sales_pub".toList ["orders".toList] [] = some q ∧
        (alterAddPublication (scripted (some (MiniPg.duplicate "orders".toList))) ()
            ⟨"sales_pub".toList, "salesdb".toList, ["orders".toList], []⟩).outcome =
          alterOutcome (((scripted (some (MiniPg.duplicate "orders".toList))).exec ()
            "salesdb".toList q).2) ∧
        (alterAddPublication (scripted (some (MiniPg.duplicate "orders".toList))) ()
            ⟨"sales_pub".toList, "salesdb".toList, ["orders".toList], []⟩).state =
          ((scripted (some (MiniPg.duplicate "orders".toList))).exec () "salesdb".toList q).1 ∧
        executedOf (alterAddPublication (scripted (some (MiniPg.duplicate "orders".toList))) ()
            ⟨"sales_pub".toList, "salesdb".toList, ["orders".toList], []⟩).events = [q]) ∧
      (alterAddPublication (scripted (some (MiniPg.duplicate "orders".toList))) ()
          ⟨"sales_pub".toList, "salesdb".toList, ["orders".toList], []⟩).outcome =
        .returned (some (.other (MiniPg.duplicate "orders".toList))) ∧
      (alterSetPublication (scripted (some (MiniPg.undefined "orders".toList))) ()
          ⟨"sales_pub".toList, "salesdb".toList, ["orders".toList], []⟩).outcome =
        .panicked (.other (MiniPg.undefined "orders".toList)) ∧
      (alterAddPublication (scripted none) ()
          ⟨"sales_pub".toList, "salesdb".toList, ["orders".toList], []⟩).outcome =
        .returned none :=
  ⟨⟨by decide, by decide, by decide, by decide⟩,
    (alter_exec_outcomes (scripted (some (MiniPg.duplicate "orders".toList))) ()
      "sales_pub".toList "salesdb".toList ["orders".toList] []
      (by decide) (by decide) (by decide) (by decide)).1,
    by decide, by decide, by decide⟩

/-- C15: `validatePublication` returns no error exactly when the publication
name and the database name are both non-empty; and with an empty publication
name or an empty database name each of get, create, alter-add, alter-set and
drop returns that validation error with no event at all (no connection, no
query, no statement) and the server state unchanged. -/
theorem validation_gates_every_operation {σ : Type} (pc : Client σ) (s : σ)
    (request : CommonRequest) (withTables : Bool) :
    (validatePublication request.PubName request.Database = none ↔
        request.PubName ≠ [] ∧ request.Database ≠ []) ∧
      (request.PubName = [] ∨ request.Database = [] →
        ∃ err, validatePublication request.PubName request.Database = some err ∧
          getPublication pc s request withTables =
            (.returned (PublicationInfo.zero, some err), []) ∧
          createPublication pc s request = ⟨.returned (some err), s, []⟩ ∧
          alterAddPublication pc s request = ⟨.returned (some err), s, []⟩ ∧
          alterSetPublication pc s request = ⟨.returned (some err), s, []⟩ ∧
          dropPublication pc s request = ⟨.returned (some err), s, []⟩) := by
  refine ⟨validatePublication_eq_none_iff _ _, fun h => ?_⟩
  cases hv : validatePublication request.PubName request.Database with
  | none =>
    have := (validatePublication_eq_none_iff _ _).mp hv
    tauto
  | some err =>
    refine ⟨err, rfl, ?_, ?_, ?_, ?_, ?_⟩
    · unfold getPublication; simp only [hv]
    · unfold createPublication; simp only [hv]
    · unfold alterAddPublication; simp only [hv]
    · unfold alterSetPublication; simp only [hv]
    · unfold dropPublication; simp only [hv]

/-- C15 for a request with an empty publication name. -/
theorem validation_gates_every_operation_witness :
    (([] : Str) = [] ∨ "salesdb".toList = []) ∧
      ∃ err, validatePublication [] "salesdb".toList = some err ∧
        getPublication miniPg withSalesPub ⟨[], "salesdb".toList, [], []⟩ true =
          (.returned (PublicationInfo.zero, some err), []) ∧
        createPublication miniPg withSalesPub ⟨[], "salesdb".toList, [], []⟩ =
          ⟨.returned (some err), withSalesPub, []⟩ ∧
        alterAddPublication miniPg withSalesPub ⟨[], "salesdb".toList, [], []⟩ =
          ⟨.returned (some err), withSalesPub, []⟩ ∧
        alterSetPublication miniPg withSalesPub ⟨[], "salesdb".toList, [], []⟩ =
          ⟨.returned (some err), withSalesPub, []⟩ ∧
        dropPublication miniPg withSalesPub ⟨[], "salesdb".toList, [], []⟩ =
          ⟨.returned (some err), withSalesPub, []⟩ :=
  ⟨Or.inl rfl,
    (validation_gates_every_operation miniPg withSalesPub ⟨[], "salesdb".toList, [], []⟩ true).2
      (Or.inl rfl)⟩

/-! ## Health check and attribute arrays -/

/-- C13 as stated fails: on a server whose default database does not exist the
probe's result is `OUT_OF_SERVICE`, and when the probe is the case taken
`RequestHealth` panics with `postgres is unavailable` instead of returning
that result. -/
theorem RequestHealth_out_of_service_panics :
    getHealth miniPg noDatabases = HealthOOS ∧
      RequestHealth miniPg noDatabases .probe =
        .panicked (.other "postgres is unavailable".toList) ∧
      RequestHealth miniPg noDatabases .probe ≠ .returned HealthOOS := by
  decide

/-- C13, amended: when the probe finishes before the timer, a probe without
error makes `RequestHealth` return `UP`, and a probe with an error (result
`OUT_OF_SERVICE`) makes it panic with `postgres is unavailable`; when the
timer fires first it panics with `postgres connection timeout expired`. -/
theorem RequestHealth_cases {σ : Type} (ca : Client σ) (s : σ) :
    (executeHealthQuery ca s = none →
        getHealth ca s = HealthUP ∧ RequestHealth ca s .probe = .returned HealthUP) ∧
      (executeHealthQuery ca s ≠ none →
        getHealth ca s = HealthOOS ∧
          RequestHealth ca s .probe = .panicked (.other "postgres is unavailable".toList)) ∧
      RequestHealth ca s .timer =
        .panicked (.other "postgres connection timeout expired".toList) := by
  refine ⟨fun h => ?_, fun h => ?_, rfl⟩
  · have hg : getHealth ca s = HealthUP := by simp [getHealth, h]
    refine ⟨hg, ?_⟩
    have hne : HealthUP ≠ HealthOOS := by decide
    simp [RequestHealth, hg, hne]
  · have hg : getHealth ca s = HealthOOS := by
      unfold getHealth
      cases he : executeHealthQuery ca s with
      | none => exact absurd he h
      | some e => rfl
    exact ⟨hg, by simp [RequestHealth, hg]⟩

/-- C13, amended, on a server that accepts the health query and on a server
without the default database. -/
theorem RequestHealth_cases_witness :
    (executeHealthQuery (scripted none) () = none ∧
        executeHealthQuery miniPg noDatabases ≠ none) ∧
      (getHealth (scripted none) () = HealthUP ∧
        RequestHealth (scripted none) () .probe = .returned HealthUP) ∧
      (getHealth miniPg noDatabases = HealthOOS ∧
        RequestHealth miniPg noDatabases .probe =
          .panicked (.other "postgres is unavailable".toList)) :=
  ⟨⟨by decide, by decide⟩, (RequestHealth_cases (scripted none) ()).1 (by decide),
    (RequestHealth_cases miniPg noDatabases).2.1 (by decide)⟩

theorem Trim_eq_rdropWhile (s cutset : Str) :
    Trim s cutset =
      List.rdropWhile (fun c => decide (c ∈ cutset))
        (s.dropWhile (fun c => decide (c ∈ cutset))) := rfl

theorem Trim_open_brace (s : Str) (h : ∀ x, s.head? = some x → x ≠ '\x7b') :
    Trim ('\x7b' :: (s ++ ['\x7d'])) ['\x7b'] = s ++ ['\x7d'] := by
  rw [Trim_eq_rdropWhile]
  have h1 : ('\x7b' :: (s ++ ['\x7d'])).dropWhile (fun x => decide (x ∈ ['\x7b'])) =
      s ++ ['\x7d'] := by
    rw [List.dropWhile_cons_of_pos (by simp)]
    cases s with
    | nil => decide
    | cons x t =>
      have := h x rfl
      simp [List.dropWhile_cons, this]
  rw [h1, List.rdropWhile_concat_neg]
  decide

theorem Trim_close_brace (s : Str) (hh : ∀ x, s.head? = some x → x ≠ '\x7d')
    (hl : ∀ x, s.getLast? = some x → x ≠ '\x7d') :
    Trim (s ++ ['\x7d']) ['\x7d'] = s := by
  rw [Trim_eq_rdropWhile]
  cases s with
  | nil => decide
  | cons x t =>
    have hx := hh x rfl
    have h1 : ((x :: t) ++ ['\x7d']).dropWhile (fun y => decide (y ∈ ['\x7d'])) =
        (x :: t) ++ ['\x7d'] := by
      simp [List.dropWhile_cons, hx]
    rw [h1, List.rdropWhile_concat_pos _ _ _ (by simp)]
    rcases List.eq_nil_or_concat (x :: t) with h | ⟨u, y, h⟩
    · simp at h
    · rw [h, List.concat_eq_append] at hl ⊢
      have := hl y (by simp)
      rw [List.rdropWhile_concat_neg]
      simp [this]

theorem convAttrStrToSlice_unfold (attrs : Str) :
    convAttrStrToSlice attrs = Split (Trim (Trim attrs ['\x7b']) ['\x7d']) [','] := rfl

theorem convAttrStrToSlice_braced (s : Str) (h : noOuterBrace s = true) :
    convAttrStrToSlice ('\x7b' :: (s ++ ['\x7d'])) = Split s [','] := by
  unfold noOuterBrace at h
  rw [Bool.and_eq_true] at h
  obtain ⟨hh, hl⟩ := h
  have hh1 : ∀ x, s.head? = some x → x ≠ '\x7b' ∧ x ≠ '\x7d' := by
    intro x hx
    rw [hx] at hh
    simpa using hh
  have hl1 : ∀ x, s.getLast? = some x → x ≠ '\x7b' ∧ x ≠ '\x7d' := by
    intro x hx
    rw [hx] at hl
    simpa using hl
  rw [convAttrStrToSlice_unfold, Trim_open_brace s (fun x hx => (hh1 x hx).1),
    Trim_close_brace s (fun x hx => (hh1 x hx).2) (fun x hx => (hl1 x hx).2)]

theorem Join_cons_cons (a b : Str) (rest : List Str) (sep : Str) :
    Join (a :: b :: rest) sep = a ++ sep ++ Join (b :: rest) sep := rfl

theorem Split_Join_single (c : Char) (names : List Str) (hne : names ≠ [])
    (h : ∀ n ∈ names, c ∉ n) : Split (Join names [c]) [c] = names := by
  induction names with
  | nil => exact absurd rfl hne
  | cons a rest ih =>
    have ha : c ∉ a := h a (List.mem_cons_self _ _)
    cases rest with
    | nil => exact Split_single_of_not_mem c a ha
    | cons b more =>
      rw [Join_cons_cons, List.append_assoc, List.singleton_append,
        Split_single_append c a _ ha,
        ih (by simp) (fun n hn => h n (List.mem_cons_of_mem _ hn))]

theorem mem_Join (c : Char) (sep : Str) (names : List Str) (hs : c ∉ sep)
    (h : ∀ n ∈ names, c ∉ n) : c ∉ Join names sep := by
  induction names with
  | nil => simp [Join]
  | cons a rest ih =>
    have ha : c ∉ a := h a (List.mem_cons_self _ _)
    cases rest with
    | nil => simpa [Join] using ha
    | cons b more =>
      rw [Join_cons_cons]
      have := ih (fun n hn => h n (List.mem_cons_of_mem _ hn))
      simp [ha, hs, this]

theorem noOuterBrace_of_not_mem (s : Str) (h1 : '\x7b' ∉ s) (h2 : '\x7d' ∉ s) :
    noOuterBrace s = true := by
  unfold noOuterBrace
  rw [Bool.and_eq_true]
  constructor
  · cases hh : s.head? with
    | none => rfl
    | some x =>
      have hx : x ∈ s := List.mem_of_mem_head? hh
      have a : x ≠ '\x7b' := fun e => h1 (e ▸ hx)
      have b : x ≠ '\x7d' := fun e => h2 (e ▸ hx)
      simp [a, b]
  · cases hl : s.getLast? with
    | none => rfl
    | some x =>
      have hx : x ∈ s := List.mem_of_mem_getLast? hl
      have a : x ≠ '\x7b' := fun e => h1 (e ▸ hx)
      have b : x ≠ '\x7d' := fun e => h2 (e ▸ hx)
      simp [a, b]

/-- C14: for a string `s` that neither starts nor ends with a brace,
`convAttrStrToSlice` of `s` between braces is `s` split at every comma; and for
a non-empty list of names without comma and brace, `convAttrStrToSlice` of the
names joined by commas between braces is that list, in order. -/
theorem convAttrStrToSlice_parses (s : Str) (names : List Str) :
    (noOuterBrace s = true →
        convAttrStrToSlice ('\x7b' :: (s ++ ['\x7d'])) = Split s [',']) ∧
      (names ≠ [] → (∀ n ∈ names, PlainAttr n) →
        convAttrStrToSlice ('\x7b' :: (Join names [','] ++ ['\x7d'])) = names) := by
  refine ⟨convAttrStrToSlice_braced s, fun hne h => ?_⟩
  have hb : noOuterBrace (Join names [',']) = true :=
    noOuterBrace_of_not_mem _
      (mem_Join _ _ names (by decide) (fun n hn => (h n hn).2.1))
      (mem_Join _ _ names (by decide) (fun n hn => (h n hn).2.2))
  rw [convAttrStrToSlice_braced _ hb]
  exact Split_Join_single ',' names hne (fun n hn => (h n hn).1)

/-- C14 at the array text of the attributes `id` and `name`. -/
theorem convAttrStrToSlice_parses_witness :
    (noOuterBrace "id,name".toList = true ∧ ["id".toList, "name".toList] ≠ [] ∧
        ∀ n ∈ ["id".toList, "name".toList], PlainAttr n) ∧
      convAttrStrToSlice "\x7bid,name\x7d".toList = Split "id,name".toList [','] ∧
      convAttrStrToSlice "\x7bid,name\x7d".toList = ["id".toList, "name".toList] :=
  ⟨⟨by decide, by decide, by decide⟩,
    (convAttrStrToSlice_parses "id,name".toList ["id".toList, "name".toList]).1 (by decide),
    (convAttrStrToSlice_parses "id,name".toList ["id".toList, "name".toList]).2
      (by decide) (by decide)⟩

/-! ## Escaped names and prepared identifiers -/

theorem collapseQuotes_cons_of_ne (c : Char) (rest : Str) (h : c ≠ '"') :
    collapseQuotes (c :: rest) = c :: collapseQuotes rest := by
  cases rest <;> simp [collapseQuotes, h]

theorem collapseQuotes_quote_quote (rest : Str) :
    collapseQuotes ('"' :: '"' :: rest) = '"' :: collapseQuotes rest := by
  simp [collapseQuotes]

theorem collapseQuotes_escape_cons (x : Char) (s : Str) :
    collapseQuotes (EscapeInputValue (x :: s)) =
      (if x = '\'' then ['\'', '\''] else [x]) ++ collapseQuotes (EscapeInputValue s) := by
  rw [EscapeInputValue_cons]
  by_cases h1 : x = '\''
  · subst h1
    have : escapeChar '\'' = ['\'', '\''] := by decide
    rw [this]
    simp only [List.cons_append, List.nil_append, if_true]
    rw [collapseQuotes_cons_of_ne _ _ (by decide), collapseQuotes_cons_of_ne _ _ (by decide)]
  · by_cases h2 : x = '"'
    · subst h2
      have : escapeChar '"' = ['"', '"'] := by decide
      rw [this]
      simp only [List.cons_append, List.nil_append]
      rw [collapseQuotes_quote_quote]
      simp
    · have : escapeChar x = [x] := by simp [escapeChar, h1, h2]
      rw [this]
      simp only [List.cons_append, List.nil_append, if_neg h1]
      rw [collapseQuotes_cons_of_ne _ _ h2]

theorem collapseQuotes_escape_length (s : Str) :
    (collapseQuotes (EscapeInputValue s)).length = s.length + s.count '\'' := by
  induction s with
  | nil => rfl
  | cons x s ih =>
    rw [collapseQuotes_escape_cons, List.length_append, ih]
    by_cases h1 : x = '\''
    · subst h1; simp; omega
    · simp [h1, List.count_cons]
      omega

theorem collapseQuotes_escape_of_not_mem (s : Str) (h : '\'' ∉ s) :
    collapseQuotes (EscapeInputValue s) = s := by
  induction s with
  | nil => rfl
  | cons x s ih =>
    simp only [List.mem_cons, not_or] at h
    rw [collapseQuotes_escape_cons, ih h.2, if_neg (Ne.symm h.1)]
    rfl

theorem collapseQuotes_escape_iff (s : Str) :
    collapseQuotes (EscapeInputValue s) = s ↔ '\'' ∉ s := by
  constructor
  · intro h
    have hl := collapseQuotes_escape_length s
    rw [h] at hl
    have : s.count '\'' = 0 := by omega
    exact List.count_eq_zero.mp this
  · exact collapseQuotes_escape_of_not_mem s

theorem readIdent_cons_of_ne (c : Char) (rest : Str) (h : c ≠ '"') :
    readIdent (c :: rest) = (readIdent rest).map (fun r => (c :: r.1, r.2)) := by
  cases rest <;> simp [readIdent, h]

theorem readIdent_quote_quote (rest : Str) :
    readIdent ('"' :: '"' :: rest) = (readIdent rest).map (fun r => ('"' :: r.1, r.2)) := by
  simp [readIdent]

theorem readIdent_close (c : Char) (rest : Str) (h : c ≠ '"') :
    readIdent ('"' :: c :: rest) = some ([], c :: rest) := by
  simp [readIdent, h]

/-- Reading back what the builders write between the quotes gives the
collapsed escaped name. -/
theorem readIdent_escape (s : Str) (c : Char) (rest : Str) (h : c ≠ '"') :
    readIdent (EscapeInputValue s ++ '"' :: c :: rest) =
      some (collapseQuotes (EscapeInputValue s), c :: rest) := by
  induction s with
  | nil => exact readIdent_close c rest h
  | cons x s ih =>
    rw [collapseQuotes_escape_cons, EscapeInputValue_cons]
    by_cases h1 : x = '\''
    · subst h1
      have : escapeChar '\'' = ['\'', '\''] := by decide
      rw [this]
      simp only [List.cons_append, List.nil_append, if_true]
      rw [readIdent_cons_of_ne _ _ (by decide), readIdent_cons_of_ne _ _ (by decide), ih]
      rfl
    · by_cases h2 : x = '"'
      · subst h2
        have : escapeChar '"' = ['"', '"'] := by decide
        rw [this]
        simp only [List.cons_append, List.nil_append]
        rw [readIdent_quote_quote, ih]
        rfl
      · have : escapeChar x = [x] := by simp [escapeChar, h1, h2]
        rw [this]
        simp only [List.cons_append, List.nil_append, if_neg h1]
        rw [readIdent_cons_of_ne _ _ h2, ih]
        rfl

theorem dropLeading_append (lead x : Str) : dropLeading lead (lead ++ x) = some x := by
  induction lead with
  | nil => cases x <;> rfl
  | cons p lead ih => simp [dropLeading, ih]

theorem namedIn_escape (lead s : Str) (c : Char) (rest : Str) (h : c ≠ '"') :
    namedIn lead (lead ++ (EscapeInputValue s ++ '"' :: c :: rest)) =
      some (collapseQuotes (EscapeInputValue s)) := by
  unfold namedIn
  rw [dropLeading_append]
  simp only
  rw [readIdent_escape s c rest h]
  rfl

theorem Sprintf_drop (a : Str) :
    Sprintf pubDropQuery [a] = "DROP publication \"".toList ++ (a ++ '"' :: ';' :: []) := by
  simp [Sprintf, pubDropQuery]

theorem Sprintf_createTables (a b : Str) :
    Sprintf pubCreateWithTablesQuery [a, b] =
      "CREATE publication \"".toList ++ (a ++ '"' :: ' ' :: ("FOR TABLE ".toList ++ b)) := by
  simp [Sprintf, pubCreateWithTablesQuery]

theorem Sprintf_createSchemas (a b : Str) :
    Sprintf pubCreateWithSchemasQuery [a, b] =
      "CREATE publication \"".toList ++
        (a ++ '"' :: ' ' :: ("FOR TABLES IN SCHEMA ".toList ++ b)) := by
  simp [Sprintf, pubCreateWithSchemasQuery]

theorem Sprintf_alterAddTables (a b : Str) :
    Sprintf pubAlterAddWithTablesQuery [a, b] =
      "ALTER PUBLICATION \"".toList ++ (a ++ '"' :: ' ' :: ("ADD TABLE ".toList ++ b)) := by
  simp [Sprintf, pubAlterAddWithTablesQuery]

theorem Sprintf_alterAddSchemas (a b : Str) :
    Sprintf pubAlterAddWithSchemasQuery [a, b] =
      "ALTER PUBLICATION \"".toList ++
        (a ++ '"' :: ' ' :: ("ADD TABLES IN SCHEMA ".toList ++ b)) := by
  simp [Sprintf, pubAlterAddWithSchemasQuery]

theorem Sprintf_alterSetTables (a b : Str) :
    Sprintf pubAlterSetWithTablesQuery [a, b] =
      "ALTER PUBLICATION \"".toList ++ (a ++ '"' :: ' ' :: ("SET TABLE ".toList ++ b)) := by
  simp [Sprintf, pubAlterSetWithTablesQuery]

theorem formQuery_schemas_only (name : Str) (schemas : List Str) (qT qS : Str)
    (h : schemas ≠ []) :
    formQueryWithTablesAndSchemas name [] schemas qT qS =
      some (Sprintf qS [EscapeInputValue name, Join (prepareSchemas schemas) ",".toList]) := by
  cases schemas with
  | nil => exact absurd rfl h
  | cons s rest => simp [formQueryWithTablesAndSchemas]

/-- Every statement built from templates that open with `lead` and the quoted
name starts with `lead`, the escaped name, the closing quote and a space. -/
theorem formQuery_shape (lead tT tS qT qS : Str)
    (hT : ∀ a b, Sprintf qT [a, b] = lead ++ (a ++ '"' :: ' ' :: (tT ++ b)))
    (hS : ∀ a b, Sprintf qS [a, b] = lead ++ (a ++ '"' :: ' ' :: (tS ++ b)))
    (name : Str) (tables schemas : List Str) (hne : tables ≠ [] ∨ schemas ≠ []) :
    ∃ tail, formQueryWithTablesAndSchemas name tables schemas qT qS =
      some (lead ++ (EscapeInputValue name ++ '"' :: ' ' :: tail)) := by
  by_cases ht : tables = []
  · subst ht
    have hs : schemas ≠ [] := by tauto
    exact ⟨_, by rw [formQuery_schemas_only name schemas qT qS hs, hS]⟩
  · have h1 := formQuery_tables_only name tables qT qS ht
    have hp := prepareTables_isSome tables
    cases hpt : prepareTables tables with
    | none => simp [hpt] at hp
    | some p =>
      rw [hpt] at h1
      simp only [Option.map_some'] at h1
      rw [hT] at h1
      by_cases hs : schemas = []
      · subst hs
        exact ⟨_, h1⟩
      · refine ⟨(tT ++ Join p ",".toList) ++ schemaSuffix schemas, ?_⟩
        rw [formQuery_both name tables schemas qT qS ht hs, h1]
        simp [List.append_assoc]

theorem namedIn_formQuery (lead tT tS qT qS : Str)
    (hT : ∀ a b, Sprintf qT [a, b] = lead ++ (a ++ '"' :: ' ' :: (tT ++ b)))
    (hS : ∀ a b, Sprintf qS [a, b] = lead ++ (a ++ '"' :: ' ' :: (tS ++ b)))
    (name : Str) (tables schemas : List Str) (hne : tables ≠ [] ∨ schemas ≠ []) :
    ∃ q, formQueryWithTablesAndSchemas name tables schemas qT qS = some q ∧
      namedIn lead q = some (collapseQuotes (EscapeInputValue name)) := by
  obtain ⟨tail, h⟩ := formQuery_shape lead tT tS qT qS hT hS name tables schemas hne
  exact ⟨_, h, namedIn_escape lead name ' ' tail (by decide)⟩

theorem query_args_of_lookup {σ : Type} (pc : Client σ) (s : σ) (name db : Str)
    (withTables : Bool) (d q : Str) (a : List Str)
    (h : Event.query d q a ∈ (getPublicationInternal pc s name db withTables).2) :
    a = [name] := by
  unfold getPublicationInternal GetConnectionToDb at h
  cases hc : pc.connect s (if db = [] then pc.DefaultDB else db) with
  | some msg =>
    simp only [hc] at h
    split_ifs at h <;> simp at h
  | none =>
    simp only [hc] at h
    cases hq : pc.queryPublication s (if db = [] then pc.DefaultDB else db) name with
    | error e => simp [hq] at h; exact h.2.2
    | ok row =>
      cases row with
      | none => simp [hq] at h; exact h.2.2
      | some r =>
        cases withTables with
        | false => simp [hq] at h; exact h.2.2
        | true =>
          cases ht : pc.queryTables s (if db = [] then pc.DefaultDB else db) name with
          | error e => simp [hq, ht] at h; rcases h with h | h <;> exact h.2.2
          | ok rows => simp [hq, ht] at h; rcases h with h | h <;> exact h.2.2

theorem EscapeInputValue_append_cons (a b : Str) (c : Char) (h1 : c ≠ '\'') (h2 : c ≠ '"') :
    EscapeInputValue (a ++ c :: b) = EscapeInputValue a ++ c :: EscapeInputValue b := by
  rw [EscapeInputValue_append, EscapeInputValue_cons]
  simp [escapeChar, h1, h2]

theorem EvenQuotes_escape (s : Str) : EvenQuotes (EscapeInputValue s) :=
  runLengthsFrom_escape '"' (Or.inr rfl) s 0 (by decide)

/-- The first piece of an escaped string split at `.` is the escaped part
before the first `.`. -/
theorem first_piece_escape (b : Str) :
    ∃ b1, (Split (EscapeInputValue b) ['.']).getD 0 [] = EscapeInputValue b1 ∧ '.' ∉ b1 ∧
      ∀ c, c ∈ b1 → c ∈ b := by
  by_cases h : '.' ∈ b
  · obtain ⟨b1, b2, h1, h2⟩ := exists_first_cut '.' b h
    refine ⟨b1, ?_, h1, fun c hc => by rw [h2]; simp [hc]⟩
    rw [h2, EscapeInputValue_append_cons _ _ _ (by decide) (by decide),
      Split_single_append _ _ _ (by rwa [mem_EscapeInputValue])]
    rfl
  · refine ⟨b, ?_, h, fun c hc => hc⟩
    rw [Split_single_of_not_mem _ _ (by rwa [mem_EscapeInputValue])]
    rfl

theorem prepareTable_closed (t : Str) (h : '(' ∉ t) :
    ∃ p, prepareTable t = some p ∧ ClosedShape p := by
  rw [prepareTable_unfold]
  by_cases hd : '.' ∈ t
  · have hc : Contains (EscapeInputValue t) ['.'] = true :=
      (Contains_single _ _).mpr (by rwa [mem_EscapeInputValue])
    rw [if_pos hc]
    obtain ⟨a, b, ha, hab⟩ := exists_first_cut '.' t hd
    obtain ⟨b1, hb1, hb1d, hb1m⟩ := first_piece_escape b
    have hp : '(' ∉ b1 := fun hm => h (by rw [hab]; simp [hb1m _ hm])
    refine ⟨quoted (EscapeInputValue a) ++ '.' :: quoted (EscapeInputValue b1), ?_, Or.inr
      ⟨_, _, rfl, ⟨EvenQuotes_escape a, by rwa [mem_EscapeInputValue]⟩,
        ⟨EvenQuotes_escape b1, by rwa [mem_EscapeInputValue]⟩⟩⟩
    rw [hab, EscapeInputValue_append_cons _ _ _ (by decide) (by decide),
      prepareTableWithSchema_append _ _ (by rwa [mem_EscapeInputValue]), hb1,
      prepareTableWithArgs_of_not_mem _ (by rwa [mem_EscapeInputValue])]
  · have hc : ¬ Contains (EscapeInputValue t) ['.'] = true := by
      rw [Contains_single, mem_EscapeInputValue]; exact hd
    rw [if_neg hc, prepareTableWithArgs_of_not_mem _ (by rwa [mem_EscapeInputValue])]
    exact ⟨_, rfl, Or.inl ⟨_, rfl, EvenQuotes_escape t, by rwa [mem_EscapeInputValue]⟩⟩

/-- C16 (the code departs from the claim): `prepareTableWithArgs` splits the
token at every `(` and uses only the first two pieces, so what follows a second
`(` is dropped: `orders (id) WHERE (price > 10)` is prepared as
`"orders "(id) WHERE `, without the row filter. -/
theorem prepareTables_drops_after_second_paren :
    prepareTables ["orders (id) WHERE (price > 10)".toList] =
        some ["\"orders \"(id) WHERE ".toList] ∧
      prepareTables ["orders (id) WHERE (price > 10)".toList] ≠
        some [quoted (EscapeInputValue "orders ".toList) ++
          '(' :: EscapeInputValue "id) WHERE (price > 10)".toList] := by
  decide

/-- C17: collapsing the doubled double quotes of `EscapeInputValue name` gives
`name` back exactly when `name` has no single quote.  The name every CREATE,
ALTER and DROP statement denotes is that collapsed string, while the lookup
passes `name` itself as the query parameter; so with a single quote in `name`
the two differ. -/
theorem escaped_name_denotes (name : Str) :
    (collapseQuotes (EscapeInputValue name) = name ↔ '\'' ∉ name) ∧
      namedIn "CREATE publication \"".toList (getPubCreateAllTablesQuery name) =
        some (collapseQuotes (EscapeInputValue name)) ∧
      namedIn "DROP publication \"".toList (getPubDropQuery name) =
        some (collapseQuotes (EscapeInputValue name)) ∧
      (∀ tables schemas : List Str, tables ≠ [] ∨ schemas ≠ [] →
        (∃ q, getPubCreateQuery name tables schemas = some q ∧
          namedIn "CREATE publication \"".toList q =
            some (collapseQuotes (EscapeInputValue name))) ∧
        (∃ q, getPubAlterAddQuery name tables schemas = some q ∧
          namedIn "ALTER PUBLICATION \"".toList q =
            some (collapseQuotes (EscapeInputValue name))) ∧
        (∃ q, getPubAlterSetQuery name tables schemas = some q ∧
          namedIn "ALTER PUBLICATION \"".toList q =
            some (collapseQuotes (EscapeInputValue name)))) ∧
      (∀ (σ : Type) (pc : Client σ) (s : σ) (db : Str) (withTables : Bool) (d q : Str)
        (a : List Str),
        Event.query d q a ∈ (getPublicationInternal pc s name db withTables).2 → a = [name]) ∧
      ('\'' ∈ name → collapseQuotes (EscapeInputValue name) ≠ name) := by
  refine ⟨collapseQuotes_escape_iff name, ?_, ?_, fun tables schemas hne => ⟨?_, ?_, ?_⟩,
    fun σ pc s db wt d q a h => query_args_of_lookup pc s name db wt d q a h,
    fun h he => (collapseQuotes_escape_iff name).mp he h⟩
  · rw [getPubCreateAllTablesQuery, Sprintf_createAll]
    exact namedIn_escape _ name ' ' _ (by decide)
  · rw [getPubDropQuery, Sprintf_drop]
    exact namedIn_escape _ name ';' _ (by decide)
  · exact namedIn_formQuery _ _ _ _ _ Sprintf_createTables Sprintf_createSchemas name tables
      schemas hne
  · exact namedIn_formQuery _ _ _ _ _ Sprintf_alterAddTables Sprintf_alterAddSchemas name tables
      schemas hne
  · exact namedIn_formQuery _ _ _ _ _ Sprintf_alterSetTables Sprintf_alterAddSchemas name tables
      schemas hne

/-- C17 at the name `a'b`: the statements denote `a''b`. -/
theorem escaped_name_denotes_witness :
    '\'' ∈ "a'b".toList ∧
      collapseQuotes (EscapeInputValue "a'b".toList) ≠ "a'b".toList ∧
      collapseQuotes (EscapeInputValue "a'b".toList) = "a''b".toList ∧
      namedIn "CREATE publication \"".toList (getPubCreateAllTablesQuery "a'b".toList) =
        some (collapseQuotes (EscapeInputValue "a'b".toList)) :=
  ⟨by decide, (escaped_name_denotes "a'b".toList).2.2.2.2.2 (by decide), by decide,
    (escaped_name_denotes "a'b".toList).2.1⟩

/-- C18 as stated fails for schemas: `prepareSchemas` does not split at `.`, so
the schema `a.b` is prepared as `"a.b"`, one quoted segment with a `.` inside
its quotes. -/
theorem prepareSchemas_keeps_dot :
    prepareSchemas ["a.b".toList] = ["\"a.b\"".toList] ∧ ¬ ClosedShape "\"a.b\"".toList := by
  refine ⟨by decide, ?_⟩
  rintro (⟨a, h, -, hd⟩ | ⟨a, b, h, -⟩)
  · have h' : '"' :: ("a.b".toList ++ ['"']) = '"' :: (a ++ ['"']) := h
    have ha : "a.b".toList = a := List.append_cancel_right (List.cons.inj h').2
    subst ha
    exact hd (by decide)
  · have hl := congrArg List.length h
    simp [quoted] at hl
    have ha : a = [] := List.length_eq_zero.mp (by omega)
    have hb : b = [] := List.length_eq_zero.mp (by omega)
    subst ha hb
    exact absurd h (by decide)

/-- C18, amended: for a table token without `(`, the prepared token is one
double-quoted segment or two double-quoted segments joined by one `.`, and
inside the quotes of each segment every double quote is in a run of even
length and there is no `.`.  A prepared schema name is one double-quoted
segment in which every double quote is in a run of even length; a `.` of the
schema name stays inside the quotes. -/
theorem prepared_identifiers_closed (t s : Str) :
    ('(' ∉ t → ∃ p, prepareTables [t] = some [p] ∧ ClosedShape p) ∧
      prepareSchemas [s] = [quoted (EscapeInputValue s)] ∧
      EvenQuotes (EscapeInputValue s) := by
  refine ⟨fun h => ?_, by rw [prepareSchemas_eq_map]; rfl, EvenQuotes_escape s⟩
  obtain ⟨p, hp, hc⟩ := prepareTable_closed t h
  exact ⟨p, by rw [prepareTables_singleton, hp]; rfl, hc⟩

/-- C18, amended, at the table token `public.or"ders` and the schema `a.b`. -/
theorem prepared_identifiers_closed_witness :
    '(' ∉ "public.or\"ders".toList ∧
      (∃ p, prepareTables ["public.or\"ders".toList] = some [p] ∧ ClosedShape p) ∧
      prepareTables ["public.or\"ders".toList] = some ["\"public\".\"or\"\"ders\"".toList] ∧
      prepareSchemas ["a.b".toList] = [quoted (EscapeInputValue "a.b".toList)] ∧
      EvenQuotes (EscapeInputValue "a.b".toList) :=
  ⟨by decide, (prepared_identifiers_closed "public.or\"ders".toList "a.b".toList).1 (by decide),
    by decide, (prepared_identifiers_closed "public.or\"ders".toList "a.b".toList).2⟩

end Pgskipper
